import Mathlib

/-!
Shallow embedding of the dealership inventory / lead-engine data layer
(`auto_mcp/data/store.py`, `auto_mcp/escalation/store.py`,
`auto_mcp/escalation/detector.py`) and proofs about it.

Modelling conventions:
* Timestamps are rationals measured in days (the code stores ISO-8601 UTC
  strings whose lexicographic order agrees with chronological order, and all
  arithmetic is done on `datetime` values in days/seconds).
* SQLite tables are lists of records, in insertion order.
* Python floats are modelled as `ℚ`; `round(x, 2)` is modelled by `round2`
  (none of the values appearing in the claims sits on a rounding tie).
* Fresh `uuid` identifiers are passed in as explicit arguments; theorems add
  freshness hypotheses where the source relies on uniqueness of uuids.
* Free-form JSON metadata columns (`event_meta`, `metadata`,
  `enriched_payload`) are not modelled: no claim mentions them.
-/

-- The Batteries rational primitives are `@[irreducible]`, which blocks
-- `decide` on concrete states; restore normal transparency for this file.
attribute [local semireducible] Rat.add Rat.mul Rat.inv Rat.sub

namespace AutoStore

abbrev Time := ℚ

-- ── String helpers ──────────────────────────────────────────────────
-- Python's `str.upper` / `str.lower` / `str.strip` on the ASCII data this
-- system handles.  Defined structurally over the character list so that the
-- kernel can evaluate them (`String.toUpper` et al. use well-founded
-- recursion over byte positions, which `decide` cannot reduce).

/-- ASCII uppercase of one character. -/
def charUpper (c : Char) : Char :=
  if 'a' ≤ c && c ≤ 'z' then Char.ofNat (c.toNat - 32) else c

/-- ASCII lowercase of one character. -/
def charLower (c : Char) : Char :=
  if 'A' ≤ c && c ≤ 'Z' then Char.ofNat (c.toNat + 32) else c

/-- Python `str.upper` (ASCII). -/
def strUpper (s : String) : String := ⟨s.data.map charUpper⟩

/-- Python `str.lower` (ASCII). -/
def strLower (s : String) : String := ⟨s.data.map charLower⟩

/-- Whitespace recognised by Python `str.strip`. -/
def isSpaceChar (c : Char) : Bool :=
  c == ' ' || c == '\t' || c == '\n' || c == '\r'

/-- Python `str.strip`. -/
def strTrim (s : String) : String :=
  ⟨((s.data.dropWhile isSpaceChar).reverse.dropWhile isSpaceChar).reverse⟩

/-- Floor of a rational, written out so the kernel can evaluate it. -/
def ratFloor (q : ℚ) : ℤ := q.num.fdiv q.den

/-- Python `max(0, ·)` on rationals. -/
def qmax0 (q : ℚ) : ℚ := if q < 0 then 0 else q

/-- Python `max(0, ·)` on integers. -/
def imax0 (n : Int) : Int := if n < 0 then 0 else n

/-- `round(x, 2)` of the source (tie behaviour differs from Python's
banker's rounding, but no claim value sits on a tie). -/
def round2 (q : ℚ) : ℚ := (ratFloor (q * 100 + 1/2) : ℚ) / 100

/-- `ARCHIVED_SOLD_STATUS` in `auto_mcp/data/store.py`. -/
def archivedSoldStatus : String := "archived_sold"

/-- `ARCHIVED_REMOVED_STATUS` in `auto_mcp/data/store.py`. -/
def archivedRemovedStatus : String := "archived_removed"

/-- `_ARCHIVED_STATUSES`. -/
def archivedStatuses : List String := [archivedSoldStatus, archivedRemovedStatus]

/-- `SOLD_STATUS`. -/
def soldStatus : String := "sold"

/-- `_HIDDEN_FROM_CUSTOMER_SEARCH_STATUSES`. -/
def hiddenStatuses : List String :=
  [soldStatus, archivedSoldStatus, archivedRemovedStatus]

/-- `DEFAULT_TTL_DAYS`. -/
def defaultTtlDays : Int := 7

/-- `LEAD_SCORE_WEIGHTS` (unknown actions score 0, matching
`LEAD_SCORE_WEIGHTS.get(action, 0.0)`). -/
def leadScoreWeight (action : String) : ℚ :=
  if action = "viewed" then 1
  else if action = "compared" then 3
  else if action = "financed" then 6
  else if action = "availability_check" then 5
  else if action = "test_drive" then 8
  else if action = "reserve_vehicle" then 9
  else if action = "contact_dealer" then 4
  else if action = "purchase_deposit" then 10
  else 0

/-- Modelled from the spec: `cip_protocol.engagement.scoring.recency_multiplier`
(the `cip_protocol` package is not under `src/`; only its caller and the
`AUTO_SCORING_CONFIG` recency bands `(1, 1.0), (3, 0.85), (7, 0.70),
(14, 0.50), (30, 0.30)` with default `0.0` are).  The spec describes it as a
step function of age in days: `≤1d→1.0, ≤3d→0.85, ≤7d→0.70, ≤14d→0.50,
≤30d→0.30, else 0`. -/
def recencyMultiplier (ageDays : ℚ) : ℚ :=
  if ageDays ≤ 1 then 1
  else if ageDays ≤ 3 then 17/20
  else if ageDays ≤ 7 then 7/10
  else if ageDays ≤ 14 then 1/2
  else if ageDays ≤ 30 then 3/10
  else 0

-- ── Vehicle rows ────────────────────────────────────────────────────

/-- One row of the `vehicles` table (the 32 public columns of
`VEHICLE_FIELDS` plus the internal `updated_at`).  `expiresAt = none` models
the empty-string sentinel written by `remove` / archival. -/
structure VehicleRow where
  id : String
  year : Int
  make : String
  model : String
  trim : String
  bodyType : String
  price : ℚ
  mileage : Int
  exteriorColor : String
  interiorColor : String
  fuelType : String
  mpgCity : Int
  mpgHighway : Int
  engine : String
  transmission : String
  drivetrain : String
  features : List String
  safetyRating : Int
  dealerName : String
  dealerLocation : String
  availabilityStatus : String
  vin : String
  dealerZip : String
  latitude : Option ℚ
  longitude : Option ℚ
  source : String
  sourceUrl : String
  ingestedAt : Time
  expiresAt : Option Time
  lastVerified : Time
  isFeatured : Bool
  leadCount : Int
  updatedAt : Time
deriving Repr, DecidableEq

/-- The caller-supplied vehicle dict consumed by `upsert`
(`SqliteVehicleStore._vehicle_to_row` reads each key with a default; absent
keys are modelled by the listed default values, and the three TTL fields by
`Option`). -/
structure VehicleInput where
  id : String := ""
  year : Int := 0
  make : String := ""
  model : String := ""
  trim : String := ""
  bodyType : String := ""
  price : ℚ := 0
  mileage : Int := 0
  exteriorColor : String := ""
  interiorColor : String := ""
  fuelType : String := ""
  mpgCity : Int := 0
  mpgHighway : Int := 0
  engine : String := ""
  transmission : String := ""
  drivetrain : String := ""
  features : List String := []
  safetyRating : Int := 0
  dealerName : String := ""
  dealerLocation : String := ""
  availabilityStatus : String := "in_stock"
  vin : String := ""
  dealerZip : String := ""
  latitude : Option ℚ := none
  longitude : Option ℚ := none
  source : String := "seed"
  sourceUrl : String := ""
  ingestedAt : Option Time := none
  expiresAt : Option Time := none
  lastVerified : Option Time := none
  ttlDays : Int := defaultTtlDays
  isFeatured : Bool := false
  leadCount : Int := 0
deriving Repr, DecidableEq

/-- `SqliteVehicleStore._vehicle_to_row`: VIN is upper-cased; `ingested_at`
and `last_verified` default to "now" when absent; `expires_at` defaults to
`now + max(0, ttl_days)` when absent or unparseable.  The source computes its
own `now_iso` inside and receives `updated_at` from the caller, which passes
`self._now()` of the same instant; both are modelled by the single `now`
argument. -/
def vehicleToRow (v : VehicleInput) (now : Time) : VehicleRow :=
  { id := v.id
    year := v.year
    make := v.make
    model := v.model
    trim := v.trim
    bodyType := v.bodyType
    price := v.price
    mileage := v.mileage
    exteriorColor := v.exteriorColor
    interiorColor := v.interiorColor
    fuelType := v.fuelType
    mpgCity := v.mpgCity
    mpgHighway := v.mpgHighway
    engine := v.engine
    transmission := v.transmission
    drivetrain := v.drivetrain
    features := v.features
    safetyRating := v.safetyRating
    dealerName := v.dealerName
    dealerLocation := v.dealerLocation
    availabilityStatus := v.availabilityStatus
    vin := strUpper v.vin
    dealerZip := v.dealerZip
    latitude := v.latitude
    longitude := v.longitude
    source := v.source
    sourceUrl := v.sourceUrl
    ingestedAt := v.ingestedAt.getD now
    expiresAt := some (v.expiresAt.getD (now + (imax0 v.ttlDays : ℤ)))
    lastVerified := v.lastVerified.getD now
    isFeatured := v.isFeatured
    leadCount := v.leadCount
    updatedAt := now }

/-- `UPSERT_SQL`: `INSERT ... ON CONFLICT(id) DO UPDATE SET` every non-`id`
column (including `updated_at`), i.e. replace the row keyed on `id`, else
append. -/
def upsertRow (vehicles : List VehicleRow) (row : VehicleRow) : List VehicleRow :=
  if vehicles.any (fun r => r.id == row.id) then
    vehicles.map (fun r => if r.id == row.id then row else r)
  else
    vehicles ++ [row]

/-- `SqliteVehicleStore.get`: the row with this id unless its status is in
`_ARCHIVED_STATUSES`. -/
def getVehicle (vehicles : List VehicleRow) (vid : String) : Option VehicleRow :=
  vehicles.find? fun r =>
    r.id == vid && !(archivedStatuses.contains r.availabilityStatus)

/-- `SqliteVehicleStore.count`: rows whose status is not in
`_HIDDEN_FROM_CUSTOMER_SEARCH_STATUSES` (`sold` and both archived states are
excluded). -/
def countVehicles (vehicles : List VehicleRow) : Nat :=
  (vehicles.filter fun r => !(hiddenStatuses.contains r.availabilityStatus)).length

/-- `SqliteVehicleStore.remove`: archive any row with this id that is not
already archived, clearing `expires_at`; reports whether a row was
affected. -/
def removeVehicle (vehicles : List VehicleRow) (vid : String) :
    List VehicleRow × Bool :=
  let hit := fun (r : VehicleRow) =>
    r.id == vid && !(archivedStatuses.contains r.availabilityStatus)
  (vehicles.map fun r =>
      if hit r then
        { r with availabilityStatus := archivedRemovedStatus, expiresAt := none }
      else r,
   vehicles.any hit)

/-- `SqliteVehicleStore.remove_expired`: archive every row not hidden from
customer search whose non-empty `expires_at` lies strictly in the past;
returns the archived count. -/
def removeExpired (vehicles : List VehicleRow) (now : Time) :
    List VehicleRow × Nat :=
  let hit := fun (r : VehicleRow) =>
    !(hiddenStatuses.contains r.availabilityStatus) &&
      (match r.expiresAt with
       | some t => decide (t < now)
       | none => false)
  (vehicles.map fun r =>
      if hit r then
        { r with availabilityStatus := archivedRemovedStatus, expiresAt := none }
      else r,
   (vehicles.filter hit).length)

example :
    (vehicleToRow { id := "A", vin := "abc" } 0).vin = "ABC" := by decide

example :
    getVehicle (upsertRow [] (vehicleToRow { id := "A" } 0)) "A" =
      some (vehicleToRow { id := "A" } 0) := by decide

-- ── Lead events and profiles ────────────────────────────────────────

/-- One row of the `leads` table (the free-form `event_meta` JSON column is
not modelled). -/
structure LeadEvent where
  id : String
  vehicleId : String
  vehicleVin : String
  dealerName : String
  dealerZip : String
  action : String
  userQuery : String
  createdAt : Time
  leadId : String
  customerId : String
  sessionId : String
  customerName : String
  customerContact : String
  sourceChannel : String
deriving Repr, DecidableEq

/-- One row of the `lead_profiles` table. -/
structure LeadProfile where
  id : String
  customerId : String
  sessionId : String
  customerName : String
  customerContact : String
  status : String
  score : ℚ
  firstSeenAt : Time
  lastActivityAt : Time
  lastVehicleId : String
  notes : String
  sourceChannel : String
deriving Repr, DecidableEq

/-- `SELECT ... ORDER BY last_activity_at DESC LIMIT 1` over a match set:
some row with maximal `last_activity_at` (the source's tie order among equal
timestamps is unspecified by SQLite; this picks the earliest-inserted, and no
claim depends on the choice among ties). -/
def mostRecentProfile (profiles : List LeadProfile) : Option LeadProfile :=
  profiles.foldl
    (fun acc r =>
      match acc with
      | none => some r
      | some b => if b.lastActivityAt < r.lastActivityAt then some r else some b)
    none

/-- `find?` on profile id (`SELECT ... FROM lead_profiles WHERE id = ?`). -/
def findProfile (profiles : List LeadProfile) (pid : String) : Option LeadProfile :=
  profiles.find? fun r => r.id == pid

/-- The trusted-`lead_id` branch of `_lookup_lead_profile_id` (store.py:764-778),
over already-normalised fields: a row found by id is returned only when at
least one non-empty identity field matches it. -/
def trustedLookup (profiles : List LeadProfile)
    (nLead nCust nContact nSess : String) : Option String :=
  if nLead ≠ "" then
    match findProfile profiles nLead with
    | some row =>
        if (nCust ≠ "" ∧ nCust = row.customerId)
            ∨ (nContact ≠ "" ∧ nContact = row.customerContact)
            ∨ (nSess ≠ "" ∧ nSess = row.sessionId) then
          some row.id
        else
          none
    | none => none
  else none

/-- The fallback chain of `_lookup_lead_profile_id` (store.py:780-813), over
already-normalised fields: by `customer_id`, then `customer_contact`, then
`session_id`, most recent `last_activity_at` winning within each field. -/
def fallbackLookup (profiles : List LeadProfile)
    (nCust nContact nSess : String) : Option String :=
  match (if nCust ≠ "" then
      (mostRecentProfile (profiles.filter fun r => r.customerId == nCust)).map (·.id)
    else none) with
  | some i => some i
  | none =>
    match (if nContact ≠ "" then
        (mostRecentProfile (profiles.filter fun r => r.customerContact == nContact)).map (·.id)
      else none) with
    | some i => some i
    | none =>
      if nSess ≠ "" then
        (mostRecentProfile (profiles.filter fun r => r.sessionId == nSess)).map (·.id)
      else none

/-- `SqliteVehicleStore._lookup_lead_profile_id`: a caller-supplied `lead_id`
is trusted only when at least one of the supplied `customer_id`,
normalized `customer_contact`, `session_id` matches the stored profile;
otherwise fall back to matching by `customer_id`, then contact, then
`session_id`, most recent `last_activity_at` first; else `none`. -/
def lookupLeadProfileId (profiles : List LeadProfile)
    (leadId customerId customerContact sessionId : String) : Option String :=
  let nLead := strTrim leadId
  let nCust := strTrim customerId
  let nContact := strLower (strTrim customerContact)
  let nSess := strTrim sessionId
  match trustedLookup profiles nLead nCust nContact nSess with
  | some i => some i
  | none => fallbackLookup profiles nCust nContact nSess

/-- `SqliteVehicleStore._resolve_or_create_lead_profile`: resolve via
`_lookup_lead_profile_id`; on a miss insert a fresh profile (status `new`,
score 0); on a hit merge newly supplied identity fields (first non-empty
wins) and update `last_activity_at` / `last_vehicle_id`. -/
def resolveOrCreateLeadProfile (profiles : List LeadProfile)
    (vehicleId : String) (now : Time) (freshId : String)
    (leadId customerId sessionId customerName customerContact sourceChannel : String) :
    List LeadProfile × String :=
  let resolved := lookupLeadProfileId profiles leadId customerId customerContact sessionId
  let nCust := strTrim customerId
  let nSess := strTrim sessionId
  let nName := strTrim customerName
  let nContact := strLower (strTrim customerContact)
  let nSource := if strTrim sourceChannel = "" then "direct" else strTrim sourceChannel
  match resolved with
  | none =>
      (profiles ++
        [{ id := freshId, customerId := nCust, sessionId := nSess,
           customerName := nName, customerContact := nContact,
           status := "new", score := 0, firstSeenAt := now,
           lastActivityAt := now, lastVehicleId := vehicleId,
           notes := "", sourceChannel := nSource }],
       freshId)
  | some rid =>
      match findProfile profiles rid with
      | none => (profiles, rid)
      | some existing =>
          let merged :=
            { existing with
              customerId := if nCust = "" then existing.customerId else nCust
              sessionId := if nSess = "" then existing.sessionId else nSess
              customerName := if nName = "" then existing.customerName else nName
              customerContact := if nContact = "" then existing.customerContact else nContact
              sourceChannel := if nSource = "" then existing.sourceChannel else nSource
              lastActivityAt := now
              lastVehicleId := vehicleId }
          (profiles.map fun r => if r.id == rid then merged else r, rid)

/-- `SqliteVehicleStore._compute_lead_score`: decayed weighted sum over this
profile's events inside the trailing scoring window (30 days), rounded to two
decimals. -/
def computeLeadScore (events : List LeadEvent) (leadId : String) (now : Time)
    (days : ℚ := 30) : ℚ :=
  let since := now - days
  round2 <|
    ((events.filter fun e => e.leadId == leadId && decide (since < e.createdAt)).foldl
      (fun acc e =>
        let w := leadScoreWeight e.action
        if w ≤ 0 then acc
        else acc + w * recencyMultiplier (qmax0 (now - e.createdAt)))
      0)

-- ── Escalations ─────────────────────────────────────────────────────

/-- One row of the `escalations` table (`auto_mcp/escalation/store.py`;
`enriched_payload` is not modelled). -/
structure Escalation where
  id : String
  leadId : String
  escalationType : String
  oldStatus : String
  newStatus : String
  score : ℚ
  vehicleId : String
  customerName : String
  customerContact : String
  sourceChannel : String
  triggeringAction : String
  createdAt : Time
  delivered : Bool
  deliveredAt : Option Time
deriving Repr, DecidableEq

/-- `ESCALATION_TRANSITIONS` in `auto_mcp/escalation/detector.py`. -/
def escalationTransition (oldStatus newStatus : String) : Option String :=
  if oldStatus = "new" ∧ newStatus = "engaged" then some "cold_to_warm"
  else if oldStatus = "new" ∧ newStatus = "qualified" then some "cold_to_hot"
  else if oldStatus = "engaged" ∧ newStatus = "qualified" then some "warm_to_hot"
  else none

/-- `check_escalation` (pure part): `none` when the status did not change or
the transition is not in the table, else a fresh undelivered record.
Registered callbacks only produce side effects outside the store state and
are not modelled. -/
def checkEscalation (leadId oldStatus newStatus : String) (score : ℚ)
    (vehicleId customerName customerContact sourceChannel action : String)
    (now : Time) (freshId : String) : Option Escalation :=
  if oldStatus = newStatus then none
  else
    match escalationTransition oldStatus newStatus with
    | none => none
    | some ty =>
        some
          { id := freshId, leadId := leadId, escalationType := ty,
            oldStatus := oldStatus, newStatus := newStatus, score := score,
            vehicleId := vehicleId, customerName := customerName,
            customerContact := customerContact, sourceChannel := sourceChannel,
            triggeringAction := action, createdAt := now,
            delivered := false, deliveredAt := none }

/-- `EscalationStore.save`: `INSERT OR IGNORE` keyed on `id`. -/
def saveEscalation (escs : List Escalation) (e : Escalation) : List Escalation :=
  if escs.any (fun x => x.id == e.id) then escs else escs ++ [e]

/-- `EscalationStore.has_active_escalation`: an undelivered record of this
type exists for this lead. -/
def hasActiveEscalation (escs : List Escalation) (leadId ty : String) : Bool :=
  escs.any fun e => e.leadId == leadId && e.escalationType == ty && !e.delivered

/-- The escalation step at the end of `record_lead`: when escalations are
enabled and the status changed, run `check_escalation` and save the result
unless an undelivered record of the same type is already pending for this
lead. -/
def updateEscalations (escs : List Escalation) (shouldCheck : Bool)
    (chk : Option Escalation) (rid : String) : List Escalation :=
  if shouldCheck then
    match chk with
    | some esc =>
        if hasActiveEscalation escs rid esc.escalationType then escs
        else saveEscalation escs esc
    | none => escs
  else escs

/-- `EscalationStore.mark_delivered`: flip `delivered` on the undelivered row
with this id; report whether a row changed. -/
def markDelivered (escs : List Escalation) (escId : String) (now : Time) :
    List Escalation × Bool :=
  (escs.map fun e =>
     if e.id == escId && !e.delivered then
       { e with delivered := true, deliveredAt := some now }
     else e,
   escs.any fun e => e.id == escId && !e.delivered)

-- ── Sales ───────────────────────────────────────────────────────────

/-- One row of the `sales` table (the free-form `metadata` JSON column is not
modelled). -/
structure Sale where
  id : String
  vehicleId : String
  leadId : String
  dealerName : String
  dealerZip : String
  soldPrice : ℚ
  listedPrice : ℚ
  sourceChannel : String
  salespersonId : String
  soldAt : Time
  recordedAt : Time
deriving Repr, DecidableEq

-- ── Whole-store state and the two big write operations ──────────────

/-- The durable tables of `SqliteVehicleStore` (plus the escalations table it
shares with `EscalationStore`). -/
structure StoreState where
  vehicles : List VehicleRow
  leads : List LeadEvent
  profiles : List LeadProfile
  sales : List Sale
  escalations : List Escalation
deriving Repr, DecidableEq

/-- The empty database created by `_create_schema`. -/
def emptyState : StoreState :=
  { vehicles := [], leads := [], profiles := [], sales := [], escalations := [] }

/-- The fresh uuid-based identifiers one `record_lead` call may mint. -/
structure FreshIds where
  profileId : String
  eventId : String
  escalationId : String
deriving Repr, DecidableEq

/-- The keyword arguments of `record_lead`. -/
structure LeadRequest where
  vehicleId : String
  action : String
  userQuery : String := ""
  leadId : String := ""
  customerId : String := ""
  sessionId : String := ""
  customerName : String := ""
  customerContact : String := ""
  sourceChannel : String := "direct"
deriving Repr, DecidableEq

/-- `source_channel.strip() or "direct"`. -/
def normSource (src : String) : String :=
  if strTrim src = "" then "direct" else strTrim src

/-- `_resolve_or_create_lead_profile` applied to the normalized identity
fields of one `record_lead` request. -/
def resolveForRequest (profiles : List LeadProfile) (req : LeadRequest)
    (now : Time) (freshProfileId : String) : List LeadProfile × String :=
  resolveOrCreateLeadProfile profiles req.vehicleId now freshProfileId
    req.leadId (strTrim req.customerId) (strTrim req.sessionId)
    (strTrim req.customerName) (strLower (strTrim req.customerContact))
    (normSource req.sourceChannel)

/-- The `leads` row `_insert_lead_event` writes for one `record_lead` call. -/
def leadEventOf (req : LeadRequest) (now : Time) (eventId : String)
    (vrow : VehicleRow) (rid : String) : LeadEvent :=
  { id := eventId, vehicleId := vrow.id, vehicleVin := vrow.vin,
    dealerName := vrow.dealerName, dealerZip := vrow.dealerZip,
    action := req.action, userQuery := req.userQuery, createdAt := now,
    leadId := rid, customerId := strTrim req.customerId,
    sessionId := strTrim req.sessionId, customerName := strTrim req.customerName,
    customerContact := strLower (strTrim req.customerContact),
    sourceChannel := normSource req.sourceChannel }

/-- The `SELECT status FROM lead_profiles WHERE id = ?` read of `record_lead`
(`"new"` when no row exists, matching the `existing_profile` fallback). -/
def statusOfProfile (profiles : List LeadProfile) (rid : String) : String :=
  match findProfile profiles rid with
  | some p => p.status
  | none => "new"

/-- The status-transition rule of `record_lead` (store.py:1483-1490):
terminal statuses are frozen; otherwise the status is recomputed from the
score thresholds alone. -/
def nextStatusOf (existingStatus : String) (score : ℚ) : String :=
  if existingStatus = "won" ∨ existingStatus = "lost" then existingStatus
  else if score ≥ 22 then "qualified"
  else if score ≥ 10 then "engaged"
  else "new"

/-- The final `UPDATE lead_profiles SET score, status, last_activity_at,
last_vehicle_id WHERE id = ?` of `record_lead`. -/
def applyProfileUpdate (profiles : List LeadProfile) (rid : String)
    (score : ℚ) (status : String) (now : Time) (vehicleId : String) :
    List LeadProfile :=
  profiles.map fun p =>
    if p.id == rid then
      { p with score := score, status := status,
               lastActivityAt := now, lastVehicleId := vehicleId }
    else p

/-- The body of `record_lead` once the target vehicle row has been fetched
(everything after the `if not row: raise` guard). -/
def recordLeadBody (s : StoreState) (req : LeadRequest) (now : Time)
    (fresh : FreshIds) (escalationsEnabled : Bool) (vrow : VehicleRow) :
    StoreState × String :=
  let resolved := resolveForRequest s.profiles req now fresh.profileId
  let rid := resolved.2
  let ev := leadEventOf req now fresh.eventId vrow rid
  let leads1 := s.leads ++ [ev]
  let vehicles1 := s.vehicles.map fun r =>
    if r.id == req.vehicleId then { r with leadCount := r.leadCount + 1 } else r
  let score := computeLeadScore leads1 rid now
  let existingStatus := statusOfProfile resolved.1 rid
  let nextStatus := nextStatusOf existingStatus score
  let profiles2 := applyProfileUpdate resolved.1 rid score nextStatus now req.vehicleId
  let escalations1 :=
    updateEscalations s.escalations
      (escalationsEnabled && decide (existingStatus ≠ nextStatus))
      (checkEscalation rid existingStatus nextStatus score req.vehicleId
        (strTrim req.customerName) (strLower (strTrim req.customerContact))
        (normSource req.sourceChannel) req.action now fresh.escalationId)
      rid
  ({ s with vehicles := vehicles1, leads := leads1,
            profiles := profiles2, escalations := escalations1 },
   rid)

/-- `SqliteVehicleStore.record_lead`.  `escalationsEnabled` models
`self._escalation_store is not None`.  Returns the updated state and the
resolved lead profile id, or the `ValueError` message. -/
def recordLead (s : StoreState) (req : LeadRequest) (now : Time)
    (fresh : FreshIds) (escalationsEnabled : Bool := true) :
    Except String (StoreState × String) :=
  match s.vehicles.find? (fun r =>
      r.id == req.vehicleId && !(hiddenStatuses.contains r.availabilityStatus)) with
  | none => .error ("Vehicle " ++ req.vehicleId ++ " not found")
  | some vrow => .ok (recordLeadBody s req now fresh escalationsEnabled vrow)

/-- The body of `record_sale` once validation has passed (a parsed `sold_at`,
a visible vehicle row, a non-negative price). -/
def recordSaleBody (s : StoreState) (vehicleId : String) (soldPrice : ℚ)
    (soldAtTime : Time) (leadId : String) (sourceChannel salespersonId : String)
    (keepVehicleRecord : Bool) (now : Time) (freshSaleId freshEventId : String)
    (vehicle : VehicleRow) : StoreState :=
  let nSource := if strTrim sourceChannel = "" then "direct" else strTrim sourceChannel
  let nLead := strTrim leadId
  let nSales := strTrim salespersonId
  let sale : Sale :=
    { id := freshSaleId, vehicleId := vehicleId, leadId := nLead,
      dealerName := vehicle.dealerName, dealerZip := vehicle.dealerZip,
      soldPrice := soldPrice, listedPrice := vehicle.price,
      sourceChannel := nSource, salespersonId := nSales,
      soldAt := soldAtTime, recordedAt := now }
  let vehicles1 := s.vehicles.map fun r =>
    if r.id == vehicleId then { r with availabilityStatus := soldStatus } else r
  let profiles1 :=
    if nLead ≠ "" then
      s.profiles.map fun p =>
        if p.id == nLead then
          { p with status := "won", lastActivityAt := now,
                   lastVehicleId := vehicleId }
        else p
    else s.profiles
  let ev : LeadEvent :=
    { id := freshEventId, vehicleId := vehicle.id, vehicleVin := vehicle.vin,
      dealerName := vehicle.dealerName, dealerZip := vehicle.dealerZip,
      action := "sale_closed", userQuery := "Sale recorded", createdAt := now,
      leadId := nLead, customerId := "", sessionId := "",
      customerName := "", customerContact := "", sourceChannel := nSource }
  let vehicles2 :=
    if keepVehicleRecord then vehicles1
    else
      vehicles1.map fun r =>
        if r.id == vehicleId then
          { r with availabilityStatus := archivedSoldStatus, expiresAt := none }
        else r
  { s with vehicles := vehicles2, leads := s.leads ++ [ev],
           profiles := profiles1, sales := s.sales ++ [sale] }

/-- `SqliteVehicleStore.record_sale`.  `soldAt = none` models an unparseable
`sold_at` string (`_parse_iso_datetime` returning `None`). -/
def recordSale (s : StoreState) (vehicleId : String) (soldPrice : ℚ)
    (soldAt : Option Time) (leadId : String) (sourceChannel salespersonId : String)
    (keepVehicleRecord : Bool) (now : Time) (freshSaleId freshEventId : String) :
    Except String StoreState :=
  match soldAt with
  | none => .error "sold_at must be a valid ISO-8601 datetime string"
  | some soldAtTime =>
    match getVehicle s.vehicles vehicleId with
    | none => .error ("Vehicle " ++ vehicleId ++ " not found")
    | some vehicle =>
      if soldPrice < 0 then .error "sold_price must be greater than or equal to 0"
      else
        .ok (recordSaleBody s vehicleId soldPrice soldAtTime leadId sourceChannel
          salespersonId keepVehicleRecord now freshSaleId freshEventId vehicle)

-- ── State-level operations and reachability ─────────────────────────

/-- `SqliteVehicleStore.upsert` on the whole store state. -/
def stUpsert (s : StoreState) (v : VehicleInput) (now : Time) : StoreState :=
  { s with vehicles := upsertRow s.vehicles (vehicleToRow v now) }

/-- `SqliteVehicleStore.upsert_many`: one shared `now`, each row upserted in
order inside one transaction. -/
def stUpsertMany (s : StoreState) (vs : List VehicleInput) (now : Time) : StoreState :=
  vs.foldl (fun acc v => stUpsert acc v now) s

/-- One public write operation of the store, with the fresh uuids it mints
and the wall-clock instant it runs at made explicit. -/
inductive StoreOp where
  | upsert (v : VehicleInput) (now : Time)
  | upsertMany (vs : List VehicleInput) (now : Time)
  | remove (vehicleId : String)
  | removeExpired (now : Time)
  | recordLead (req : LeadRequest) (now : Time) (fresh : FreshIds)
  | recordSale (vehicleId : String) (soldPrice : ℚ) (soldAt : Option Time)
      (leadId sourceChannel salespersonId : String) (keep : Bool) (now : Time)
      (freshSaleId freshEventId : String)
  | markDelivered (escId : String) (now : Time)
deriving Repr

/-- Apply one operation; a raised `ValueError` leaves the state unchanged
(the source validates before any write). -/
def applyOp (s : StoreState) : StoreOp → StoreState
  | .upsert v now => stUpsert s v now
  | .upsertMany vs now => stUpsertMany s vs now
  | .remove vid => { s with vehicles := (removeVehicle s.vehicles vid).1 }
  | .removeExpired now => { s with vehicles := (removeExpired s.vehicles now).1 }
  | .recordLead req now fresh =>
      match recordLead s req now fresh true with
      | .ok r => r.1
      | .error _ => s
  | .recordSale vid price soldAt leadId src sp keep now freshSale freshEvent =>
      match recordSale s vid price soldAt leadId src sp keep now freshSale freshEvent with
      | .ok r => r
      | .error _ => s
  | .markDelivered escId now =>
      { s with escalations := (markDelivered s.escalations escId now).1 }

/-- The store state reached by running a sequence of operations against a
fresh database. -/
def runOps (ops : List StoreOp) : StoreState := ops.foldl applyOp emptyState

-- ── Pricing opportunities (`get_pricing_opportunities`) ─────────────

/-- Structural insertion of one price into a sorted list. -/
def insertSortedQ (x : ℚ) : List ℚ → List ℚ
  | [] => [x]
  | y :: ys => if x ≤ y then x :: y :: ys else y :: insertSortedQ x ys

/-- Ascending sort (written structurally so the kernel can evaluate it). -/
def sortQ (l : List ℚ) : List ℚ := l.foldr insertSortedQ []

/-- `statistics.median`: middle element of the sorted list, or the mean of
the two middle elements for even length (callers guard against `[]`; 0 there
matches no caller). -/
def medianQ (l : List ℚ) : ℚ :=
  let sorted := sortQ l
  let n := sorted.length
  if n = 0 then 0
  else if n % 2 = 1 then sorted.getD (n / 2) 0
  else (sorted.getD (n / 2 - 1) 0 + sorted.getD (n / 2) 0) / 2

/-- `abs` on ℚ, written so the kernel can evaluate it. -/
def absQ (q : ℚ) : ℚ := if q < 0 then -q else q

/-- `SqliteVehicleStore._days_since` for a timestamp that parses: whole days
elapsed, clamped at 0 (rows written through the modelled operations always
carry a parseable `ingested_at`, so the `unknown_age` fallback to
`updated_at` never fires here). -/
def daysSince (value now : Time) : Int :=
  if now - value < 0 then 0 else ratFloor (now - value)

/-- Rows visible to the analytics sweeps
(`_active_inventory_clause(include_sold=False)`). -/
def activeVehicles (vehicles : List VehicleRow) : List VehicleRow :=
  vehicles.filter fun r => !(hiddenStatuses.contains r.availabilityStatus)

/-- The `(make, model)` peer prices of `v`: every other active row with the
same lower-cased make and model (`_peer_by_mm` grouping minus the vehicle
itself). -/
def mmPeerPrices (actives : List VehicleRow) (v : VehicleRow) : List ℚ :=
  (actives.filter fun p =>
      strLower p.make == strLower v.make && strLower p.model == strLower v.model
        && p.id != v.id).map (·.price)

/-- The `(body_type, fuel_type)` fallback peer prices (`_peer_by_bf`). -/
def bfPeerPrices (actives : List VehicleRow) (v : VehicleRow) : List ℚ :=
  (actives.filter fun p =>
      strLower p.bodyType == strLower v.bodyType
        && strLower p.fuelType == strLower v.fuelType && p.id != v.id).map (·.price)

/-- Lead events for a vehicle newer than `since` (the
`SUM(CASE WHEN created_at > ? ...)` aggregates). -/
def leadsSince (leads : List LeadEvent) (vid : String) (since : Time) : Nat :=
  (leads.filter fun e => e.vehicleId == vid && decide (since < e.createdAt)).length

/-- One row of the `opportunities` payload of `get_pricing_opportunities`. -/
structure PricingRow where
  vehicleId : String
  price : ℚ
  marketMedianPrice : ℚ
  priceDeltaPercent : ℚ
  peerBasis : String
  peerCount : Nat
  daysOnLot : Int
  leads7d : Nat
  leads30d : Nat
  velocityBucket : String
  flags : List String
  recommendation : String
deriving Repr, DecidableEq

/-- The peer-price set actually used: `(make, model)` when it is non-empty,
else the `(body_type, fuel_type)` fallback. -/
def peersOf (actives : List VehicleRow) (v : VehicleRow) : List ℚ :=
  if mmPeerPrices actives v ≠ [] then mmPeerPrices actives v
  else bfPeerPrices actives v

/-- The `peer_basis` label reported alongside `peersOf`. -/
def peerBasisOf (actives : List VehicleRow) (v : VehicleRow) : String :=
  if mmPeerPrices actives v ≠ [] then "make_model" else "body_fuel"

/-- `market_median_price` before rounding: the peer median, 0 on no peers. -/
def peerMedian (peerPrices : List ℚ) : ℚ :=
  if peerPrices ≠ [] then medianQ peerPrices else 0

/-- `price_delta_pct` before rounding (0 when the median is not positive). -/
def peerDelta (price marketMedian : ℚ) : ℚ :=
  if 0 < marketMedian then (price - marketMedian) / marketMedian * 100 else 0

/-- The `velocity` bucket from 7-day lead volume. -/
def velocityBucketOf (l7 : ℕ) : String :=
  if l7 ≥ 5 then "high" else if l7 ≥ 2 then "medium" else "low"

/-- The `flags` list: `stale` / `overpriced` / `underpriced`. -/
def pricingFlags (ageDays staleDaysThreshold : Int) (marketMedian delta : ℚ)
    (overPct underPct : ℚ) : List String :=
  (if ageDays ≥ staleDaysThreshold then ["stale"] else []) ++
  (if 0 < marketMedian ∧ delta ≥ overPct then ["overpriced"] else []) ++
  (if 0 < marketMedian ∧ delta ≤ underPct then ["underpriced"] else [])

/-- The `recommendation` priority: `reprice_down`, then `promote_listing`
for stale slow movers, else `hold_price`. -/
def pricingRecommendation (flags : List String) (velocity : String) : String :=
  if flags.contains "overpriced" then "reprice_down"
  else if flags.contains "stale" ∧ velocity = "low" then "promote_listing"
  else "hold_price"

/-- One emitted opportunity row. -/
def pricingRowOf (v : VehicleRow) (marketMedian delta : ℚ) (peerBasis : String)
    (peerCount : ℕ) (ageDays : Int) (l7 l30 : ℕ) (velocity : String)
    (flags : List String) : PricingRow :=
  { vehicleId := v.id, price := v.price,
    marketMedianPrice := round2 marketMedian,
    priceDeltaPercent := round2 delta,
    peerBasis := peerBasis, peerCount := peerCount,
    daysOnLot := ageDays, leads7d := l7, leads30d := l30,
    velocityBucket := velocity, flags := flags,
    recommendation := pricingRecommendation flags velocity }

/-- The per-vehicle body of the `get_pricing_opportunities` loop: peer set
selection, median, delta, velocity, flags and recommendation; `none` when no
flag fires (the vehicle is skipped). -/
def pricingOpportunity (actives : List VehicleRow) (leads : List LeadEvent)
    (now : Time) (staleDaysThreshold : Int) (overPct underPct : ℚ)
    (v : VehicleRow) : Option PricingRow :=
  let ageDays := daysSince v.ingestedAt now
  let marketMedian := peerMedian (peersOf actives v)
  let delta := peerDelta v.price marketMedian
  let l7 := leadsSince leads v.id (now - 7)
  let l30 := leadsSince leads v.id (now - 30)
  let flags := pricingFlags ageDays staleDaysThreshold marketMedian delta
    overPct underPct
  if flags = [] then none
  else
    some (pricingRowOf v marketMedian delta (peerBasisOf actives v)
      (peersOf actives v).length ageDays l7 l30 (velocityBucketOf l7) flags)

/-- `priority_rank` of the final sort. -/
def priorityRank (recommendation : String) : Nat :=
  if recommendation = "reprice_down" then 0
  else if recommendation = "promote_listing" then 1
  else if recommendation = "hold_price" then 2
  else 3

/-- Python string comparison (code-point lexicographic). -/
def charListLt : List Char → List Char → Bool
  | [], [] => false
  | [], _ :: _ => true
  | _ :: _, [] => false
  | a :: as, b :: bs => if a < b then true else if b < a then false else charListLt as bs

/-- `a < b` on strings, written structurally. -/
def strLt (a b : String) : Bool := charListLt a.data b.data

/-- The sort key order of `opportunities.sort`:
`(priority_rank, -|delta|, -days_on_lot, vehicle_id)` ascending. -/
def oppKeyLE (a b : PricingRow) : Bool :=
  if priorityRank a.recommendation ≠ priorityRank b.recommendation then
    priorityRank a.recommendation < priorityRank b.recommendation
  else if absQ a.priceDeltaPercent ≠ absQ b.priceDeltaPercent then
    absQ b.priceDeltaPercent < absQ a.priceDeltaPercent
  else if a.daysOnLot ≠ b.daysOnLot then
    b.daysOnLot < a.daysOnLot
  else !(strLt b.vehicleId a.vehicleId)

/-- Stable insertion into a list sorted by `oppKeyLE`. -/
def insertSortedOpp (x : PricingRow) : List PricingRow → List PricingRow
  | [] => [x]
  | y :: ys => if oppKeyLE x y then x :: y :: ys else y :: insertSortedOpp x ys

/-- Stable ascending sort by `oppKeyLE` (Python `list.sort` is stable). -/
def sortOpps (l : List PricingRow) : List PricingRow := l.foldr insertSortedOpp []

/-- `SqliteVehicleStore.get_pricing_opportunities`: evaluate every active
vehicle, keep the flagged ones, sort by recommendation priority then
`|delta|` then age then id, and cap at `limit` (the `filters` echo and the
flag-count `summary` are projections of the same list and not separately
modelled). -/
def getPricingOpportunities (s : StoreState) (now : Time)
    (limit : Nat := 25) (staleDaysThreshold : Int := 45)
    (overPct : ℚ := 5) (underPct : ℚ := -5) : List PricingRow :=
  let actives := activeVehicles s.vehicles
  let opps := actives.filterMap
    (pricingOpportunity actives s.leads now staleDaysThreshold overPct underPct)
  (sortOpps opps).take limit

-- ── Basic lemmas about the embedded operations ──────────────────────

theorem findProfile_cons (p : LeadProfile) (l : List LeadProfile) (pid : String) :
    findProfile (p :: l) pid = if p.id == pid then some p else findProfile l pid := by
  simp only [findProfile, List.find?]
  cases h : p.id == pid <;> simp [h]

theorem findProfile_mem {l : List LeadProfile} {pid : String} {q : LeadProfile}
    (h : findProfile l pid = some q) : q ∈ l :=
  List.mem_of_find?_eq_some h

theorem findProfile_id {l : List LeadProfile} {pid : String} {q : LeadProfile}
    (h : findProfile l pid = some q) : q.id = pid := by
  have := List.find?_some h
  simpa using this

theorem findProfile_eq_none_of_not_mem {l : List LeadProfile} {pid : String}
    (h : pid ∉ l.map (·.id)) : findProfile l pid = none := by
  induction l with
  | nil => rfl
  | cons p ps ih =>
    rw [findProfile_cons]
    simp only [List.map_cons, List.mem_cons, not_or] at h
    rw [if_neg (by simpa [beq_iff_eq] using fun hc => h.1 hc.symm), ih h.2]

theorem findProfile_isSome_of_mem {l : List LeadProfile} {P : LeadProfile}
    (h : P ∈ l) : (findProfile l P.id).isSome := by
  rw [findProfile, List.find?_isSome]
  exact ⟨P, h, by simp⟩

theorem findProfile_append_of_none {l₁ l₂ : List LeadProfile} {pid : String}
    (h : findProfile l₁ pid = none) :
    findProfile (l₁ ++ l₂) pid = findProfile l₂ pid := by
  induction l₁ with
  | nil => rfl
  | cons p ps ih =>
    rw [findProfile_cons] at h
    rw [List.cons_append, findProfile_cons]
    by_cases hp : p.id == pid
    · simp [hp] at h
    · simp only [hp, if_neg, Bool.false_eq_true, if_false] at h ⊢
      exact ih h

theorem findProfile_map_update (l : List LeadProfile) (pid : String)
    (g : LeadProfile → LeadProfile) (hg : ∀ p, (g p).id = p.id) :
    findProfile (l.map fun p => if p.id == pid then g p else p) pid =
      (findProfile l pid).map g := by
  induction l with
  | nil => rfl
  | cons p ps ih =>
    by_cases hp : p.id = pid
    · simp [findProfile_cons, beq_iff_eq, hp, hg]
    · simp only [beq_iff_eq] at ih
      simp [findProfile_cons, beq_iff_eq, hp, ih]

theorem findProfile_map_const (l : List LeadProfile) (pid : String)
    (c : LeadProfile) (hc : c.id = pid) :
    findProfile (l.map fun p => if p.id == pid then c else p) pid =
      (findProfile l pid).map (fun _ => c) := by
  induction l with
  | nil => rfl
  | cons p ps ih =>
    by_cases hp : p.id = pid
    · simp [findProfile_cons, beq_iff_eq, hp, hc]
    · simp only [beq_iff_eq] at ih
      simp [findProfile_cons, beq_iff_eq, hp, ih]

theorem mostRecentProfile_aux_cases (l : List LeadProfile) :
    ∀ (acc : Option LeadProfile) (b : LeadProfile),
      l.foldl
        (fun acc r =>
          match acc with
          | none => some r
          | some x => if x.lastActivityAt < r.lastActivityAt then some r else some x)
        acc = some b →
      b ∈ l ∨ acc = some b := by
  induction l with
  | nil => intro acc b h; exact Or.inr h
  | cons r rs ih =>
    intro acc b h
    rcases ih _ b h with hmem | hacc
    · exact Or.inl (List.mem_cons_of_mem _ hmem)
    · match acc with
      | none =>
        simp only at hacc
        exact Or.inl (by simp [← Option.some.injEq _ _ |>.mp hacc, List.mem_cons])
      | some x =>
        simp only at hacc
        by_cases hlt : x.lastActivityAt < r.lastActivityAt
        · rw [if_pos hlt] at hacc
          exact Or.inl (by simp [← Option.some.injEq _ _ |>.mp hacc, List.mem_cons])
        · rw [if_neg hlt] at hacc
          exact Or.inr hacc

theorem mostRecentProfile_mem {l : List LeadProfile} {b : LeadProfile}
    (h : mostRecentProfile l = some b) : b ∈ l := by
  rcases mostRecentProfile_aux_cases l none b h with hmem | hacc
  · exact hmem
  · cases hacc

theorem trustedLookup_mem {profiles : List LeadProfile}
    {nLead nCust nContact nSess rid : String}
    (h : trustedLookup profiles nLead nCust nContact nSess = some rid) :
    ∃ q ∈ profiles, q.id = rid := by
  unfold trustedLookup at h
  split at h
  · split at h
    next row hrow =>
      split at h
      · cases h
        exact ⟨row, findProfile_mem hrow, rfl⟩
      · cases h
    next => cases h
  · cases h

theorem fallbackLookup_mem {profiles : List LeadProfile}
    {nCust nContact nSess rid : String}
    (h : fallbackLookup profiles nCust nContact nSess = some rid) :
    ∃ q ∈ profiles, q.id = rid := by
  unfold fallbackLookup at h
  split at h
  next i hby =>
    split at hby
    · cases h
      rcases Option.map_eq_some'.mp hby with ⟨q, hq, hqid⟩
      exact ⟨q, (List.mem_filter.mp (mostRecentProfile_mem hq)).1, hqid⟩
    · cases hby
  next hby =>
    split at h
    next i hby2 =>
      split at hby2
      · cases h
        rcases Option.map_eq_some'.mp hby2 with ⟨q, hq, hqid⟩
        exact ⟨q, (List.mem_filter.mp (mostRecentProfile_mem hq)).1, hqid⟩
      · cases hby2
    next hby2 =>
      split at h
      · rcases Option.map_eq_some'.mp h with ⟨q, hq, hqid⟩
        exact ⟨q, (List.mem_filter.mp (mostRecentProfile_mem hq)).1, hqid⟩
      · cases h

theorem lookupLeadProfileId_mem {profiles : List LeadProfile}
    {leadId customerId customerContact sessionId rid : String}
    (h : lookupLeadProfileId profiles leadId customerId customerContact sessionId =
      some rid) :
    ∃ q ∈ profiles, q.id = rid := by
  unfold lookupLeadProfileId at h
  simp only at h
  split at h
  next i htr =>
    cases h
    exact trustedLookup_mem htr
  next htr =>
    exact fallbackLookup_mem h

theorem recordLead_ok_elim {s : StoreState} {req : LeadRequest} {now : Time}
    {fresh : FreshIds} {en : Bool} {out : StoreState × String}
    (h : recordLead s req now fresh en = .ok out) :
    ∃ vrow, s.vehicles.find? (fun r =>
        r.id == req.vehicleId && !(hiddenStatuses.contains r.availabilityStatus)) =
          some vrow ∧
      out = recordLeadBody s req now fresh en vrow := by
  unfold recordLead at h
  split at h
  · cases h
  · next vrow hfind =>
      cases h
      exact ⟨vrow, hfind, rfl⟩

theorem recordSale_ok_elim {s : StoreState} {vehicleId : String} {soldPrice : ℚ}
    {soldAt : Option Time} {leadId sourceChannel salespersonId : String}
    {keep : Bool} {now : Time} {freshSaleId freshEventId : String} {s' : StoreState}
    (h : recordSale s vehicleId soldPrice soldAt leadId sourceChannel salespersonId
      keep now freshSaleId freshEventId = .ok s') :
    ∃ soldAtTime vehicle, soldAt = some soldAtTime ∧
      getVehicle s.vehicles vehicleId = some vehicle ∧ ¬ soldPrice < 0 ∧
      s' = recordSaleBody s vehicleId soldPrice soldAtTime leadId sourceChannel
        salespersonId keep now freshSaleId freshEventId vehicle := by
  unfold recordSale at h
  split at h
  · cases h
  · next soldAtTime =>
      split at h
      · cases h
      · next vehicle hveh =>
          split at h
          · cases h
          · next hneg =>
              cases h
              exact ⟨soldAtTime, vehicle, rfl, hveh, hneg, rfl⟩

theorem recordLeadBody_vehicles (s : StoreState) (req : LeadRequest) (now : Time)
    (fresh : FreshIds) (en : Bool) (vrow : VehicleRow) :
    (recordLeadBody s req now fresh en vrow).1.vehicles =
      s.vehicles.map (fun r =>
        if r.id == req.vehicleId then { r with leadCount := r.leadCount + 1 } else r) := rfl

theorem recordLeadBody_sales (s : StoreState) (req : LeadRequest) (now : Time)
    (fresh : FreshIds) (en : Bool) (vrow : VehicleRow) :
    (recordLeadBody s req now fresh en vrow).1.sales = s.sales := rfl

-- ── The escalation dedup invariant ──────────────────────────────────

/-- At most one undelivered escalation per `(lead_id, escalation_type)`
pair. -/
def escDedup (escs : List Escalation) : Prop :=
  escs.Pairwise fun a b =>
    ¬(a.delivered = false ∧ b.delivered = false ∧
      a.leadId = b.leadId ∧ a.escalationType = b.escalationType)

theorem checkEscalation_some_fields {leadId oldStatus newStatus : String} {score : ℚ}
    {vehicleId customerName customerContact sourceChannel action : String}
    {now : Time} {freshId : String} {esc : Escalation}
    (h : checkEscalation leadId oldStatus newStatus score vehicleId customerName
      customerContact sourceChannel action now freshId = some esc) :
    esc.leadId = leadId ∧ esc.delivered = false := by
  unfold checkEscalation at h
  split at h
  · cases h
  · split at h
    · cases h
    · cases h
      exact ⟨rfl, rfl⟩

theorem escDedup_save {escs : List Escalation} {esc : Escalation}
    (hinv : escDedup escs) (hdeliv : esc.delivered = false)
    (hact : hasActiveEscalation escs esc.leadId esc.escalationType = false) :
    escDedup (saveEscalation escs esc) := by
  unfold saveEscalation
  split
  · exact hinv
  · rw [escDedup, List.pairwise_append]
    refine ⟨hinv, List.pairwise_singleton _ _, ?_⟩
    intro a ha b hb
    rw [List.mem_singleton] at hb
    subst hb
    rintro ⟨h1, _, h3, h4⟩
    have hforall : ∀ e ∈ escs,
        ¬(e.leadId = b.leadId ∧ e.escalationType = b.escalationType ∧
          e.delivered = false) := by
      intro e he hcontra
      have : hasActiveEscalation escs b.leadId b.escalationType = true := by
        unfold hasActiveEscalation
        rw [List.any_eq_true]
        exact ⟨e, he, by simp [hcontra.1, hcontra.2.1, hcontra.2.2]⟩
      rw [hact] at this
      cases this
    exact hforall a ha ⟨h3, h4, h1⟩

theorem escDedup_markDelivered {escs : List Escalation} {escId : String} {now : Time}
    (hinv : escDedup escs) : escDedup (markDelivered escs escId now).1 := by
  unfold markDelivered
  simp only
  apply List.Pairwise.map _ _ hinv
  intro a b hab
  rintro ⟨h1, h2, h3, h4⟩
  apply hab
  by_cases hca : a.id == escId && !a.delivered
  · simp only [hca, if_true] at h1; cases h1
  · by_cases hcb : b.id == escId && !b.delivered
    · simp only [hcb, if_true] at h2; cases h2
    · simp only [hca, hcb, Bool.false_eq_true, if_false] at h1 h2 h3 h4
      exact ⟨h1, h2, h3, h4⟩

theorem escDedup_updateEscalations (escs : List Escalation) (shouldCheck : Bool)
    (chk : Option Escalation) (rid : String) (hinv : escDedup escs)
    (hchk : ∀ esc, chk = some esc → esc.leadId = rid ∧ esc.delivered = false) :
    escDedup (updateEscalations escs shouldCheck chk rid) := by
  unfold updateEscalations
  split
  · cases chk with
    | none => exact hinv
    | some esc =>
        have hfields := hchk esc rfl
        dsimp only
        split
        · exact hinv
        · next hact =>
            refine escDedup_save hinv hfields.2 ?_
            rw [hfields.1]
            exact Bool.not_eq_true _ |>.mp hact
  · exact hinv

theorem recordLeadBody_escDedup (s : StoreState) (req : LeadRequest) (now : Time)
    (fresh : FreshIds) (en : Bool) (vrow : VehicleRow)
    (hinv : escDedup s.escalations) :
    escDedup (recordLeadBody s req now fresh en vrow).1.escalations := by
  dsimp only [recordLeadBody]
  apply escDedup_updateEscalations _ _ _ _ hinv
  exact fun esc h => checkEscalation_some_fields h

theorem stUpsertMany_escalations (vs : List VehicleInput) (now : Time) :
    ∀ s : StoreState, (stUpsertMany s vs now).escalations = s.escalations := by
  induction vs with
  | nil => intro s; rfl
  | cons v vs ih =>
      intro s
      show (stUpsertMany (stUpsert s v now) vs now).escalations = _
      rw [ih]
      rfl

theorem applyOp_escDedup (s : StoreState) (op : StoreOp)
    (hinv : escDedup s.escalations) : escDedup (applyOp s op).escalations := by
  cases op with
  | upsert v now => exact hinv
  | upsertMany vs now =>
      have := stUpsertMany_escalations vs now s
      simp only [applyOp, this]
      exact hinv
  | remove vid => exact hinv
  | removeExpired now => exact hinv
  | recordLead req now fresh =>
      cases hres : recordLead s req now fresh true with
      | error e => simp only [applyOp, hres]; exact hinv
      | ok out =>
          simp only [applyOp, hres]
          obtain ⟨vrow, _, hout⟩ := recordLead_ok_elim hres
          subst hout
          exact recordLeadBody_escDedup s req now fresh true vrow hinv
  | recordSale vid price soldAt leadId src sp keep now freshSale freshEvent =>
      cases hres : recordSale s vid price soldAt leadId src sp keep now
          freshSale freshEvent with
      | error e => simp only [applyOp, hres]; exact hinv
      | ok s' =>
          simp only [applyOp, hres]
          obtain ⟨soldAtTime, vehicle, _, _, _, hout⟩ := recordSale_ok_elim hres
          subst hout
          exact hinv
  | markDelivered escId now => exact escDedup_markDelivered hinv

theorem foldl_applyOp_escDedup (ops : List StoreOp) :
    ∀ s, escDedup s.escalations → escDedup (ops.foldl applyOp s).escalations := by
  induction ops with
  | nil => intro s h; exact h
  | cons op ops ih => intro s h; exact ih _ (applyOp_escDedup s op h)

-- ── Vehicle id uniqueness machinery ─────────────────────────────────

theorem map_id_eq_of_preserved {l : List VehicleRow} {f : VehicleRow → VehicleRow}
    (hf : ∀ r ∈ l, (f r).id = r.id) : (l.map f).map (·.id) = l.map (·.id) := by
  rw [List.map_map]
  exact List.map_congr_left hf

theorem upsertRow_ids_nodup {l : List VehicleRow} {row : VehicleRow}
    (h : (l.map (·.id)).Nodup) : ((upsertRow l row).map (·.id)).Nodup := by
  unfold upsertRow
  split
  · rw [map_id_eq_of_preserved]
    · exact h
    · intro r _
      by_cases hid : r.id == row.id
      · simp [hid, (beq_iff_eq.mp hid).symm]
      · simp [hid]
  · next hany =>
      have hnotin : row.id ∉ l.map (·.id) := by
        intro hmem
        rcases List.mem_map.mp hmem with ⟨r, hr, hid⟩
        exact hany (List.any_eq_true.mpr ⟨r, hr, by simp [hid]⟩)
      rw [List.map_append]
      exact List.Nodup.append h (List.nodup_singleton _)
        (fun a ha hb => by
          rw [List.map_cons, List.map_nil, List.mem_singleton] at hb
          subst hb
          exact hnotin ha)

theorem recordSaleBody_vehicle_ids (s : StoreState) (vehicleId : String)
    (soldPrice : ℚ) (soldAtTime : Time) (leadId sourceChannel salespersonId : String)
    (keep : Bool) (now : Time) (freshSaleId freshEventId : String) (vehicle : VehicleRow) :
    ((recordSaleBody s vehicleId soldPrice soldAtTime leadId sourceChannel
        salespersonId keep now freshSaleId freshEventId vehicle).vehicles).map (·.id) =
      s.vehicles.map (·.id) := by
  dsimp only [recordSaleBody]
  split
  · rw [map_id_eq_of_preserved]
    intro r _
    by_cases hid : r.id == vehicleId <;> simp [hid]
  · rw [map_id_eq_of_preserved, map_id_eq_of_preserved]
    · intro r _
      by_cases hid : r.id == vehicleId <;> simp [hid]
    · intro r _
      by_cases hid : r.id == vehicleId <;> simp [hid]

theorem stUpsertMany_ids_nodup (vs : List VehicleInput) (now : Time) :
    ∀ s : StoreState, (s.vehicles.map (·.id)).Nodup →
      ((stUpsertMany s vs now).vehicles.map (·.id)).Nodup := by
  induction vs with
  | nil => intro s h; exact h
  | cons v vs ih =>
      intro s h
      show ((stUpsertMany (stUpsert s v now) vs now).vehicles.map (·.id)).Nodup
      exact ih _ (upsertRow_ids_nodup h)

theorem applyOp_ids_nodup (s : StoreState) (op : StoreOp)
    (h : (s.vehicles.map (·.id)).Nodup) :
    ((applyOp s op).vehicles.map (·.id)).Nodup := by
  cases op with
  | upsert v now => exact upsertRow_ids_nodup h
  | upsertMany vs now => exact stUpsertMany_ids_nodup vs now s h
  | remove vid =>
      show (((removeVehicle s.vehicles vid).1).map (·.id)).Nodup
      unfold removeVehicle
      rw [map_id_eq_of_preserved]
      · exact h
      · intro r _
        split <;> rfl
  | removeExpired now =>
      show (((removeExpired s.vehicles now).1).map (·.id)).Nodup
      unfold removeExpired
      rw [map_id_eq_of_preserved]
      · exact h
      · intro r _
        split <;> rfl
  | recordLead req now fresh =>
      cases hres : recordLead s req now fresh true with
      | error e => simp only [applyOp, hres]; exact h
      | ok out =>
          simp only [applyOp, hres]
          obtain ⟨vrow, _, hout⟩ := recordLead_ok_elim hres
          subst hout
          rw [recordLeadBody_vehicles, map_id_eq_of_preserved]
          · exact h
          · intro r _
            by_cases hid : r.id == req.vehicleId <;> simp [hid]
  | recordSale vid price soldAt leadId src sp keep now freshSale freshEvent =>
      cases hres : recordSale s vid price soldAt leadId src sp keep now
          freshSale freshEvent with
      | error e => simp only [applyOp, hres]; exact h
      | ok s' =>
          simp only [applyOp, hres]
          obtain ⟨soldAtTime, vehicle, _, _, _, hout⟩ := recordSale_ok_elim hres
          subst hout
          rw [recordSaleBody_vehicle_ids]
          exact h
  | markDelivered escId now => exact h

theorem foldl_applyOp_ids_nodup (ops : List StoreOp) :
    ∀ s, (s.vehicles.map (·.id)).Nodup →
      ((ops.foldl applyOp s).vehicles.map (·.id)).Nodup := by
  induction ops with
  | nil => intro s h; exact h
  | cons op ops ih => intro s h; exact ih _ (applyOp_ids_nodup s op h)

-- ── Claim C3 ────────────────────────────────────────────────────────

/-- An active listing used by the example scenarios. -/
def exampleVehicle : VehicleInput :=
  { id := "V1", make := "Toyota", model := "Camry", bodyType := "sedan",
    fuelType := "gas", price := 30000, vin := "EXVIN000000000001" }

/-- The literal spec scenario of C3: `recordLead(V1, "financed")` then
`recordLead(V1, "availability_check", leadId=<returned>)`, both at time 0,
with no other identity signal on either call.  The first call resolves no
profile and creates `lp-1`; the guessable ids the calls may mint are spelled
out. -/
def c3LiteralOps : List StoreOp :=
  [ .upsert exampleVehicle 0,
    .recordLead { vehicleId := "V1", action := "financed" } 0
      ⟨"lp-1", "ev-1", "es-1"⟩,
    .recordLead { vehicleId := "V1", action := "availability_check", leadId := "lp-1" } 0
      ⟨"lp-2", "ev-2", "es-2"⟩ ]

/-- C3, counterexample: in the literal scenario the second call supplies only
the returned `leadId` and no matching identity signal, so
`_lookup_lead_profile_id` refuses to trust it and a second, fresh profile
`lp-2` is created.  The lead returned by the first call ends with score 6
(not 11) and status `new` (not `engaged`), and no escalation of any kind is
pending — contradicting the claimed outcome. -/
theorem c3_counterexample :
    (recordLead (runOps (c3LiteralOps.take 2))
        { vehicleId := "V1", action := "availability_check", leadId := "lp-1" } 0
        ⟨"lp-2", "ev-2", "es-2"⟩ true).toOption.map (fun r => r.2) = some "lp-2" ∧
      ((runOps c3LiteralOps).profiles.map fun p => (p.id, p.score, p.status)) =
        [("lp-1", 6, "new"), ("lp-2", 5, "new")] ∧
      (runOps c3LiteralOps).escalations = [] := by decide

/-- The C3 scenario amended so the second call carries an identity signal
matching the stored profile (the same `customer_id` as the first call). -/
def c3AmendedOps : List StoreOp :=
  [ .upsert exampleVehicle 0,
    .recordLead { vehicleId := "V1", action := "financed", customerId := "cust-1" } 0
      ⟨"lp-1", "ev-1", "es-1"⟩,
    .recordLead { vehicleId := "V1", action := "availability_check",
                  leadId := "lp-1", customerId := "cust-1" } 0
      ⟨"lp-2", "ev-2", "es-2"⟩ ]

/-- C3, amended: with a matching `customer_id` on the second call the
supplied `leadId` is trusted, both events land on the returned lead, the
total score is `6*1.0 + 5*1.0 = 11`, the status is `engaged`, and a
`cold_to_warm` escalation is pending for that lead. -/
theorem c3_amended :
    (recordLead (runOps (c3AmendedOps.take 2))
        { vehicleId := "V1", action := "availability_check",
          leadId := "lp-1", customerId := "cust-1" } 0
        ⟨"lp-2", "ev-2", "es-2"⟩ true).toOption.map (fun r => r.2) = some "lp-1" ∧
      ((runOps c3AmendedOps).profiles.map fun p => (p.id, p.score, p.status)) =
        [("lp-1", 11, "engaged")] ∧
      hasActiveEscalation (runOps c3AmendedOps).escalations "lp-1" "cold_to_warm" = true ∧
      ((runOps c3AmendedOps).escalations.map fun e =>
        (e.leadId, e.escalationType, e.oldStatus, e.newStatus, e.delivered)) =
        [("lp-1", "cold_to_warm", "new", "engaged", false)] := by decide

-- ── Claim C4 ────────────────────────────────────────────────────────

/-- The VIN-uniqueness invariant asserted by the spec: no two visible (not
`archived_*`) rows with distinct ids carry VINs equal up to case. -/
def vinCaseUniqueAmongVisible (vehicles : List VehicleRow) : Prop :=
  ∀ r₁ ∈ vehicles, ∀ r₂ ∈ vehicles,
    r₁.id ≠ r₂.id →
    ¬ archivedStatuses.contains r₁.availabilityStatus →
    ¬ archivedStatuses.contains r₂.availabilityStatus →
    strLower r₁.vin ≠ strLower r₂.vin

instance (vehicles : List VehicleRow) :
    Decidable (vinCaseUniqueAmongVisible vehicles) := by
  unfold vinCaseUniqueAmongVisible
  infer_instance

/-- Two upserts with distinct ids and the same VIN (up to case). -/
def c4Ops : List StoreOp :=
  [ .upsert { id := "VA", vin := "1hgcm82633a004352" } 0,
    .upsert { id := "VB", vin := "1HGCM82633A004352" } 0 ]

/-- C4, counterexample: `upsert` never checks the VIN (the schema has no
unique index on it), so two active rows with distinct ids and the same VIN
up to case are reachable with two plain upserts. -/
theorem c4_counterexample :
    ¬ vinCaseUniqueAmongVisible (runOps c4Ops).vehicles := by decide

/-- C4, amended: what the store does maintain is the first half of the
invariant — exactly one row per `id` in every reachable state.  VIN
uniqueness is not enforced by any store operation (see the
counterexample). -/
theorem c4_id_unique_amended (ops : List StoreOp) :
    ((runOps ops).vehicles.map (·.id)).Nodup :=
  foldl_applyOp_ids_nodup ops emptyState (by simp [emptyState])

-- ── Claim C6 ────────────────────────────────────────────────────────

/-- C6: in every state reachable through the store's operations (escalations
are written only by `record_lead`, which consults `has_active_escalation`
first, and mutated only by `mark_delivered`), no two undelivered escalation
records share a `(lead_id, escalation_type)` pair. -/
theorem c6_escalation_dedup (ops : List StoreOp) :
    escDedup (runOps ops).escalations :=
  foldl_applyOp_escDedup ops emptyState (by simp [emptyState, escDedup])

-- ── Claim C5 ────────────────────────────────────────────────────────

theorem getVehicle_replace (l : List VehicleRow) (row : VehicleRow)
    (hstat : archivedStatuses.contains row.availabilityStatus = false)
    (hany : l.any (fun r => r.id == row.id) = true) :
    getVehicle (l.map fun r => if r.id == row.id then row else r) row.id = some row := by
  have hstat' : row.availabilityStatus ∉ archivedStatuses := by simpa using hstat
  induction l with
  | nil => cases hany
  | cons r rs ih =>
      rw [List.map_cons]
      by_cases hid : (r.id == row.id) = true
      · rw [if_pos hid]
        unfold getVehicle
        rw [List.find?_cons_of_pos]
        simp [hstat']
      · rw [if_neg hid]
        simp only [List.any_cons, Bool.or_eq_true] at hany
        rcases hany with h | h
        · exact absurd h hid
        · unfold getVehicle at *
          rw [List.find?_cons_of_neg]
          · exact ih h
          · simp [hid]

theorem getVehicle_append_fresh (l : List VehicleRow) (row : VehicleRow)
    (hstat : archivedStatuses.contains row.availabilityStatus = false)
    (hany : l.any (fun r => r.id == row.id) = false) :
    getVehicle (l ++ [row]) row.id = some row := by
  have hstat' : row.availabilityStatus ∉ archivedStatuses := by simpa using hstat
  induction l with
  | nil =>
      unfold getVehicle
      rw [List.nil_append, List.find?_cons_of_pos]
      simp [hstat']
  | cons r rs ih =>
      simp only [List.any_cons, Bool.or_eq_false_iff] at hany
      rw [List.cons_append]
      unfold getVehicle at *
      rw [List.find?_cons_of_neg]
      · exact ih hany.2
      · simp [hany.1]

theorem getVehicle_upsertRow (l : List VehicleRow) (row : VehicleRow)
    (hstat : archivedStatuses.contains row.availabilityStatus = false) :
    getVehicle (upsertRow l row) row.id = some row := by
  unfold upsertRow
  split
  · next hany => exact getVehicle_replace l row hstat hany
  · next hany =>
      exact getVehicle_append_fresh l row hstat (Bool.not_eq_true _ |>.mp hany)

theorem countVehicles_map_same_visibility (l : List VehicleRow)
    (f : VehicleRow → VehicleRow)
    (hf : ∀ r ∈ l, hiddenStatuses.contains (f r).availabilityStatus =
      hiddenStatuses.contains r.availabilityStatus) :
    countVehicles (l.map f) = countVehicles l := by
  induction l with
  | nil => rfl
  | cons r rs ih =>
      have ihh := ih (fun x hx => hf x (List.mem_cons_of_mem _ hx))
      unfold countVehicles at *
      rw [List.map_cons, List.filter_cons, List.filter_cons,
        hf r (List.mem_cons_self r rs)]
      split
      · simp only [List.length_cons, ihh]
      · exact ihh

theorem mem_upsertRow_id_eq {l : List VehicleRow} {row : VehicleRow} :
    ∀ r ∈ upsertRow l row, r.id = row.id → r = row := by
  unfold upsertRow
  split
  · intro r hr hid
    rcases List.mem_map.mp hr with ⟨x, hx, hfx⟩
    by_cases hxid : (x.id == row.id) = true
    · rw [if_pos hxid] at hfx
      exact hfx.symm
    · rw [if_neg hxid] at hfx
      subst hfx
      exact absurd (beq_iff_eq.mpr hid) hxid
  · next hany =>
      intro r hr hid
      rcases List.mem_append.mp hr with h | h
      · refine absurd ?_ hany
        refine List.any_eq_true.mpr ⟨r, h, ?_⟩
        exact beq_iff_eq.mpr hid
      · rw [List.mem_singleton] at h
        exact h

/-- C5, amended: when `ingested_at` and `last_verified` are omitted they are
reset to the *current* time on every `upsert`, including a refresh of an
existing id (the `ON CONFLICT ... DO UPDATE` sets every column, so they are
overwritten, not preserved); `expires_at` defaults to `now + ttl_days` only
when not supplied and is kept verbatim when supplied; `upsert(v); upsert(v)`
still leaves `count()` unchanged and `get(v.id)` equal on both occasions
aside from the `ingested_at` / `expires_at` / `last_verified` timestamps (and
the internal `updated_at`). -/
theorem c5_upsert_refresh_amended (s : StoreState) (v : VehicleInput) (t0 t1 : Time)
    (hing : v.ingestedAt = none) (hlv : v.lastVerified = none)
    (hstat : archivedStatuses.contains v.availabilityStatus = false) :
    countVehicles (stUpsert (stUpsert s v t0) v t1).vehicles =
        countVehicles (stUpsert s v t0).vehicles ∧
      getVehicle (stUpsert s v t0).vehicles v.id = some (vehicleToRow v t0) ∧
      getVehicle (stUpsert (stUpsert s v t0) v t1).vehicles v.id =
        some (vehicleToRow v t1) ∧
      (vehicleToRow v t1).ingestedAt = t1 ∧
      (vehicleToRow v t1).lastVerified = t1 ∧
      vehicleToRow v t1 =
        { vehicleToRow v t0 with
          ingestedAt := t1, lastVerified := t1,
          expiresAt := some (v.expiresAt.getD (t1 + (imax0 v.ttlDays : ℤ))),
          updatedAt := t1 } ∧
      (∀ e, v.expiresAt = some e →
        (vehicleToRow v t0).expiresAt = some e ∧
          (vehicleToRow v t1).expiresAt = some e) ∧
      (v.expiresAt = none →
        (vehicleToRow v t0).expiresAt = some (t0 + (imax0 v.ttlDays : ℤ)) ∧
          (vehicleToRow v t1).expiresAt = some (t1 + (imax0 v.ttlDays : ℤ))) := by
  have hrow0 : (vehicleToRow v t0).availabilityStatus = v.availabilityStatus := rfl
  have hrow1 : (vehicleToRow v t1).availabilityStatus = v.availabilityStatus := rfl
  have hid0 : (vehicleToRow v t0).id = v.id := rfl
  have hid1 : (vehicleToRow v t1).id = v.id := rfl
  refine ⟨?_, ?_, ?_, ?_, ?_, ?_, ?_, ?_⟩
  · -- count unchanged on refresh
    show countVehicles (upsertRow (stUpsert s v t0).vehicles (vehicleToRow v t1)) = _
    have hmem : (vehicleToRow v t0) ∈ (stUpsert s v t0).vehicles := by
      have := getVehicle_upsertRow s.vehicles (vehicleToRow v t0) (hrow0 ▸ hstat)
      exact List.mem_of_find?_eq_some this
    have hany : (stUpsert s v t0).vehicles.any
        (fun r => r.id == (vehicleToRow v t1).id) = true := by
      refine List.any_eq_true.mpr ⟨vehicleToRow v t0, hmem, ?_⟩
      exact beq_iff_eq.mpr rfl
    unfold upsertRow
    rw [if_pos hany]
    apply countVehicles_map_same_visibility
    intro r hr
    by_cases hrid : (r.id == (vehicleToRow v t1).id) = true
    · rw [if_pos hrid]
      have : r = vehicleToRow v t0 :=
        mem_upsertRow_id_eq r hr (by simpa [hid0, hid1] using beq_iff_eq.mp hrid)
      rw [this, hrow0, hrow1]
    · rw [if_neg hrid]
  · exact hid0 ▸ getVehicle_upsertRow s.vehicles (vehicleToRow v t0) (hrow0 ▸ hstat)
  · exact hid1 ▸
      getVehicle_upsertRow (stUpsert s v t0).vehicles (vehicleToRow v t1) (hrow1 ▸ hstat)
  · simp [vehicleToRow, hing]
  · simp [vehicleToRow, hlv]
  · simp [vehicleToRow, hing, hlv]
  · intro e he
    simp [vehicleToRow, he]
  · intro he
    simp [vehicleToRow, he]

/-- A vehicle dict omitting `ingested_at`, `expires_at` and `last_verified`. -/
def c5Vehicle : VehicleInput := { id := "C5", vin := "C5VIN000000000001" }

/-- C5, counterexample: an upsert refresh at a later time overwrites the
stored `ingested_at` and `last_verified` with the new "now" when the dict
omits them, so they are not left unchanged as claimed. -/
theorem c5_counterexample :
    (getVehicle (runOps [.upsert c5Vehicle 0]).vehicles "C5").map
        (fun r => (r.ingestedAt, r.lastVerified)) = some (0, 0) ∧
      (getVehicle (runOps [.upsert c5Vehicle 0, .upsert c5Vehicle 1]).vehicles "C5").map
        (fun r => (r.ingestedAt, r.lastVerified)) = some (1, 1) := by decide

/-- C5, witness for the amended theorem at a concrete input. -/
theorem c5_amended_witness :
    countVehicles (stUpsert (stUpsert emptyState c5Vehicle 0) c5Vehicle 1).vehicles =
        countVehicles (stUpsert emptyState c5Vehicle 0).vehicles ∧
      getVehicle (stUpsert emptyState c5Vehicle 0).vehicles c5Vehicle.id =
        some (vehicleToRow c5Vehicle 0) := by
  have h := c5_upsert_refresh_amended emptyState c5Vehicle 0 1 rfl rfl (by decide)
  exact ⟨h.1, h.2.1⟩

-- ── Claim C9 ────────────────────────────────────────────────────────

/-- The `leads WHERE lead_id = ?` retrieval used by `get_lead_detail` (window
and 250-row cap aside): the events resolved to one lead profile. -/
def leadEventsFor (leads : List LeadEvent) (leadId : String) : List LeadEvent :=
  leads.filter fun e => e.leadId == leadId

theorem getVehicle_removeVehicle (l : List VehicleRow) (vid : String) :
    getVehicle (removeVehicle l vid).1 vid = none := by
  unfold getVehicle removeVehicle
  simp only
  rw [List.find?_eq_none]
  intro x hx
  rcases List.mem_map.mp hx with ⟨r, hr, hfx⟩
  by_cases hhit : (r.id == vid && !(archivedStatuses.contains r.availabilityStatus)) = true
  · rw [if_pos hhit] at hfx
    subst hfx
    simp [archivedStatuses, archivedRemovedStatus]
  · rw [if_neg hhit] at hfx
    subst hfx
    exact fun hc => hhit hc

theorem removeVehicle_affected (l : List VehicleRow) (vid : String)
    (r : VehicleRow) (hr : r ∈ l) (hid : r.id = vid)
    (hact : archivedStatuses.contains r.availabilityStatus = false) :
    (removeVehicle l vid).2 = true := by
  have hactP : r.availabilityStatus ∉ archivedStatuses := by simpa using hact
  unfold removeVehicle
  simp only
  refine List.any_eq_true.mpr ⟨r, hr, ?_⟩
  simp [hid, hactP]

theorem removeVehicle_not_affected (l : List VehicleRow) (vid : String)
    (h : ∀ r ∈ l, r.id = vid → archivedStatuses.contains r.availabilityStatus = true) :
    (removeVehicle l vid).2 = false := by
  unfold removeVehicle
  simp only
  rw [List.any_eq_false]
  intro r hr
  by_cases hid : r.id = vid
  · have := h r hr hid
    simp only [Bool.and_eq_true, beq_iff_eq, Bool.not_eq_true']
    rintro ⟨-, hc⟩
    rw [this] at hc
    cases hc
  · simp [hid]

theorem map_eq_self_of_eq {α : Type} {l : List α} {f : α → α}
    (h : ∀ a ∈ l, f a = a) : l.map f = l := by
  induction l with
  | nil => rfl
  | cons x xs ih =>
      rw [List.map_cons, h x (List.mem_cons_self x xs),
        ih (fun a ha => h a (List.mem_cons_of_mem _ ha))]

theorem countVehicles_cons_hidden (r : VehicleRow) (l : List VehicleRow)
    (h : hiddenStatuses.contains r.availabilityStatus = true) :
    countVehicles (r :: l) = countVehicles l := by
  unfold countVehicles
  rw [List.filter_cons, if_neg]
  simpa using h

theorem countVehicles_cons (r : VehicleRow) (l : List VehicleRow) :
    countVehicles (r :: l) =
      (if hiddenStatuses.contains r.availabilityStatus then 0 else 1) +
        countVehicles l := by
  unfold countVehicles
  rw [List.filter_cons]
  by_cases h : hiddenStatuses.contains r.availabilityStatus = true
  · have hm : r.availabilityStatus ∈ hiddenStatuses := by simpa using h
    rw [if_neg (by simp [hm]), if_pos h]
    omega
  · have hm : r.availabilityStatus ∉ hiddenStatuses := by simpa using h
    rw [if_pos (by simp [hm]), if_neg h, List.length_cons]
    omega

theorem countVehicles_removeVehicle (l : List VehicleRow) (vid : String)
    (hn : (l.map (·.id)).Nodup) (r : VehicleRow) (hr : r ∈ l) (hid : r.id = vid)
    (hact : archivedStatuses.contains r.availabilityStatus = false) :
    countVehicles l =
      countVehicles (removeVehicle l vid).1 +
        (if hiddenStatuses.contains r.availabilityStatus then 0 else 1) := by
  have hactP : r.availabilityStatus ∉ archivedStatuses := by simpa using hact
  induction l with
  | nil => cases hr
  | cons x xs ih =>
      rw [List.map_cons, List.nodup_cons] at hn
      by_cases hxid : x.id = vid
      · have hrx : r = x := by
          rcases List.mem_cons.mp hr with h | h
          · exact h
          · exact absurd (List.mem_map.mpr ⟨r, h, hid.trans hxid.symm⟩) hn.1
        subst hrx
        have hxs : (removeVehicle (r :: xs) vid).1 =
            { r with availabilityStatus := archivedRemovedStatus, expiresAt := none } ::
              xs := by
          unfold removeVehicle
          simp only [List.map_cons]
          rw [if_pos (by simp [hid, hactP])]
          congr 1
          apply map_eq_self_of_eq
          intro a ha
          rw [if_neg]
          intro hc
          rw [Bool.and_eq_true, beq_iff_eq] at hc
          exact hn.1 (List.mem_map.mpr ⟨a, ha, hc.1.trans hid.symm⟩)
        have hskip : countVehicles
            ({ r with availabilityStatus := archivedRemovedStatus, expiresAt := none } :: xs) =
              countVehicles xs :=
          countVehicles_cons_hidden _ xs rfl
        rw [hxs, hskip, countVehicles_cons]
        omega
      · have hrxs : r ∈ xs := by
          rcases List.mem_cons.mp hr with h | h
          · exact absurd (h ▸ hid) hxid
          · exact h
        have hxs : (removeVehicle (x :: xs) vid).1 =
            x :: (removeVehicle xs vid).1 := by
          unfold removeVehicle
          simp only [List.map_cons]
          rw [if_neg]
          intro hc
          rw [Bool.and_eq_true, beq_iff_eq] at hc
          exact hxid hc.1
        rw [hxs, countVehicles_cons, countVehicles_cons, ih hn.2 hrxs]
        omega

/-- C9, amended: after `remove(id)` of a stored, non-archived vehicle,
`get(id)` returns `None`, `remove` reports an affected row, and every lead
event keeps its row (the leads table is untouched, so events stay retrievable
by lead id); `count()` decreases by one exactly when the removed vehicle was
visible to `count()` — i.e. its status was not `sold` — and is unchanged for
a `sold` vehicle (which `count()` was already excluding); `remove` returns
`False` when every row with the id is already archived (or no row exists). -/
theorem c9_remove_amended (s : StoreState) (vid : String)
    (hn : (s.vehicles.map (·.id)).Nodup) (r : VehicleRow) (hr : r ∈ s.vehicles)
    (hid : r.id = vid)
    (hact : archivedStatuses.contains r.availabilityStatus = false) :
    (removeVehicle s.vehicles vid).2 = true ∧
      getVehicle (removeVehicle s.vehicles vid).1 vid = none ∧
      countVehicles s.vehicles =
        countVehicles (removeVehicle s.vehicles vid).1 +
          (if hiddenStatuses.contains r.availabilityStatus then 0 else 1) ∧
      (applyOp s (.remove vid)).leads = s.leads ∧
      (∀ lid, leadEventsFor (applyOp s (.remove vid)).leads lid =
        leadEventsFor s.leads lid) ∧
      (∀ vid', (∀ r' ∈ s.vehicles, r'.id = vid' →
          archivedStatuses.contains r'.availabilityStatus = true) →
        (removeVehicle s.vehicles vid').2 = false) :=
  ⟨removeVehicle_affected s.vehicles vid r hr hid hact,
   getVehicle_removeVehicle s.vehicles vid,
   countVehicles_removeVehicle s.vehicles vid hn r hr hid hact,
   rfl, fun _ => rfl,
   fun vid' h => removeVehicle_not_affected s.vehicles vid' h⟩

/-- The C9 witness vehicle. -/
def c9Vehicle : VehicleInput := { id := "R1", vin := "C9VIN000000000001" }

/-- An in-stock vehicle, one recorded lead, then removal. -/
def c9Ops : List StoreOp :=
  [ .upsert c9Vehicle 0,
    .recordLead { vehicleId := "R1", action := "viewed", customerId := "c9" } 0
      ⟨"lp-9", "ev-9", "es-9"⟩ ]

/-- C9, witness for the amended theorem: removing the in-stock vehicle flips
`get` to `None`, drops `count()` from 1 to 0, and keeps the lead event
retrievable by its lead id. -/
theorem c9_amended_witness :
    (removeVehicle (runOps c9Ops).vehicles "R1").2 = true ∧
      getVehicle (removeVehicle (runOps c9Ops).vehicles "R1").1 "R1" = none ∧
      countVehicles (runOps c9Ops).vehicles =
        countVehicles (removeVehicle (runOps c9Ops).vehicles "R1").1 + 1 ∧
      (leadEventsFor (applyOp (runOps c9Ops) (.remove "R1")).leads "lp-9").map
        (fun e => e.vehicleId) = ["R1"] := by
  have h := c9_remove_amended (runOps c9Ops) "R1" (by decide)
    { vehicleToRow c9Vehicle 0 with leadCount := 1 }
    (by decide) (by decide) (by decide)
  refine ⟨h.1, h.2.1, ?_, ?_⟩
  · have hc := h.2.2.1
    rwa [if_neg (by decide)] at hc
  · rw [h.2.2.2.2.1 "lp-9"]
    decide

/-- A stored vehicle whose status is already `sold` (non-archived). -/
def c9SoldOps : List StoreOp :=
  [ .upsert { id := "S1", vin := "C9VIN000000000002",
              availabilityStatus := "sold" } 0 ]

/-- C9, counterexample: removing a stored, non-archived vehicle whose status
is `sold` succeeds (`remove` returns `True`, `get` flips to `None`), but
`count()` does not decrease by one — it was and stays 0, because `count()`
already excluded `sold` rows. -/
theorem c9_counterexample :
    (getVehicle (runOps c9SoldOps).vehicles "S1").isSome = true ∧
      (removeVehicle (runOps c9SoldOps).vehicles "S1").2 = true ∧
      countVehicles (runOps c9SoldOps).vehicles = 0 ∧
      countVehicles (runOps (c9SoldOps ++ [.remove "S1"])).vehicles = 0 := by decide

-- ── Claim C10 ───────────────────────────────────────────────────────

theorem recordSaleBody_vehicles_keep (s : StoreState) (vid : String) (p : ℚ)
    (t : Time) (l src sp : String) (now : Time) (fs fe : String)
    (vehicle : VehicleRow) :
    (recordSaleBody s vid p t l src sp true now fs fe vehicle).vehicles =
      s.vehicles.map (fun r =>
        if r.id == vid then { r with availabilityStatus := soldStatus } else r) := rfl

theorem recordSaleBody_sales (s : StoreState) (vid : String) (p : ℚ)
    (t : Time) (l src sp : String) (keep : Bool) (now : Time) (fs fe : String)
    (vehicle : VehicleRow) :
    (recordSaleBody s vid p t l src sp keep now fs fe vehicle).sales =
      s.sales ++
        [{ id := fs, vehicleId := vid, leadId := strTrim l,
           dealerName := vehicle.dealerName, dealerZip := vehicle.dealerZip,
           soldPrice := p, listedPrice := vehicle.price,
           sourceChannel := if strTrim src = "" then "direct" else strTrim src,
           salespersonId := strTrim sp, soldAt := t, recordedAt := now }] := rfl

theorem getVehicle_sold_isSome (l : List VehicleRow) (vid : String)
    (h : (getVehicle l vid).isSome) :
    (getVehicle (l.map fun r =>
      if r.id == vid then { r with availabilityStatus := soldStatus } else r)
        vid).isSome := by
  unfold getVehicle at *
  rw [List.find?_isSome] at h ⊢
  obtain ⟨row, hmem, hpred⟩ := h
  rw [Bool.and_eq_true, beq_iff_eq] at hpred
  refine ⟨{ row with availabilityStatus := soldStatus }, ?_, ?_⟩
  · refine List.mem_map.mpr ⟨row, hmem, ?_⟩
    rw [if_pos (beq_iff_eq.mpr hpred.1)]
  · rw [Bool.and_eq_true, beq_iff_eq]
    exact ⟨hpred.1, by simp [soldStatus, archivedStatuses,
      archivedSoldStatus, archivedRemovedStatus]⟩

/-- C10, amended: `record_sale` fails exactly when `sold_at` does not parse,
the vehicle is unknown or archived (the `get` lookup admits `sold` rows), or
the price is negative; consequently, when an earlier successful `record_sale`
*kept* the vehicle record (`keep_vehicle_record=True`, leaving the row in
`sold`), a second `record_sale` with valid arguments also succeeds and
appends a second, distinct `Sale` row for the same vehicle.  (When the first
sale used `keep_vehicle_record=False` the row is `archived_sold` and the
second call raises instead — see the counterexample.) -/
theorem c10_record_sale_amended (s : StoreState) (vid : String) (p1 p2 : ℚ)
    (t1 t2 : Time) (l1 l2 src1 sp1 src2 sp2 : String) (keep2 : Bool)
    (now1 now2 : Time) (fs1 fe1 fs2 fe2 : String) (s1 : StoreState)
    (h1 : recordSale s vid p1 (some t1) l1 src1 sp1 true now1 fs1 fe1 = .ok s1)
    (hp2 : ¬ p2 < 0) :
    (∀ (p : ℚ) (soldAt : Option Time) (l src sp : String) (keep : Bool)
        (now : Time) (fs fe : String),
      (∃ s', recordSale s vid p soldAt l src sp keep now fs fe = .ok s') ↔
        (soldAt.isSome ∧ (getVehicle s.vehicles vid).isSome ∧ ¬ p < 0)) ∧
      ∃ s2, recordSale s1 vid p2 (some t2) l2 src2 sp2 keep2 now2 fs2 fe2 = .ok s2 ∧
        s2.sales.length = s1.sales.length + 1 ∧
        s1.sales.length = s.sales.length + 1 ∧
        s2.sales.map (fun x => (x.id, x.vehicleId)) =
          s1.sales.map (fun x => (x.id, x.vehicleId)) ++ [(fs2, vid)] := by
  obtain ⟨ta, vehicle, hta, hveh, hp1, hbody⟩ := recordSale_ok_elim h1
  constructor
  · intro p soldAt l src sp keep now fs fe
    constructor
    · rintro ⟨s', hs'⟩
      obtain ⟨t, v, ht, hv, hp, -⟩ := recordSale_ok_elim hs'
      exact ⟨ht ▸ rfl, hv ▸ rfl, hp⟩
    · rintro ⟨hsome, hget, hp⟩
      obtain ⟨t, ht⟩ := Option.isSome_iff_exists.mp hsome
      obtain ⟨v, hv⟩ := Option.isSome_iff_exists.mp hget
      subst ht
      refine ⟨recordSaleBody s vid p t l src sp keep now fs fe v, ?_⟩
      unfold recordSale
      rw [hv]
      dsimp only
      rw [if_neg hp]
  · subst hbody
    have hget1 : (getVehicle
        (recordSaleBody s vid p1 ta l1 src1 sp1 true now1 fs1 fe1 vehicle).vehicles
        vid).isSome := by
      rw [recordSaleBody_vehicles_keep]
      exact getVehicle_sold_isSome s.vehicles vid (by rw [hveh]; rfl)
    obtain ⟨v2, hv2⟩ := Option.isSome_iff_exists.mp hget1
    refine ⟨recordSaleBody
        (recordSaleBody s vid p1 ta l1 src1 sp1 true now1 fs1 fe1 vehicle)
        vid p2 t2 l2 src2 sp2 keep2 now2 fs2 fe2 v2,
      ?_, ?_, ?_, ?_⟩
    · unfold recordSale
      rw [hv2]
      dsimp only
      rw [if_neg hp2]
    · rw [recordSaleBody_sales]
      simp
    · rw [recordSaleBody_sales]
      simp
    · rw [recordSaleBody_sales]
      simp

instance {ε α : Type} [DecidableEq ε] [DecidableEq α] :
    DecidableEq (Except ε α) := fun a b =>
  match a, b with
  | .error e1, .error e2 =>
      if h : e1 = e2 then isTrue (by rw [h])
      else isFalse (by intro hc; cases hc; exact h rfl)
  | .error _, .ok _ => isFalse (by intro hc; cases hc)
  | .ok _, .error _ => isFalse (by intro hc; cases hc)
  | .ok a1, .ok a2 =>
      if h : a1 = a2 then isTrue (by rw [h])
      else isFalse (by intro hc; cases hc; exact h rfl)

/-- An active vehicle and a first sale that removes the record
(`keep_vehicle_record=False`), leaving the row `archived_sold`. -/
def c10ArchivedOps : List StoreOp :=
  [ .upsert { id := "V1", vin := "C10VIN00000000001", price := 30000 } 0,
    .recordSale "V1" 24500 (some 0) "" "direct" "" false 0 "sale-1" "sev-1" ]

/-- C10, counterexample: after a successful `record_sale` with
`keep_vehicle_record=False`, a second `record_sale` with valid arguments
fails with "not found" (the row is `archived_sold` and hidden from `get`), so
the universal "second sale always succeeds" is false. -/
theorem c10_counterexample :
    (runOps c10ArchivedOps).sales.length = 1 ∧
      (getVehicle (runOps (c10ArchivedOps.take 1)).vehicles "V1").isSome = true ∧
      (recordSale (runOps c10ArchivedOps) "V1" 20000 (some 1) "" "direct" ""
        true 1 "sale-2" "sev-2").toOption.isSome = false := by decide

/-- An active vehicle and a first sale that keeps the record. -/
def c10KeepOps : List StoreOp :=
  [ .upsert { id := "V1", vin := "C10VIN00000000001", price := 30000 } 0,
    .recordSale "V1" 24500 (some 0) "" "direct" "" true 0 "sale-1" "sev-1" ]

/-- C10, witness for the amended theorem at a concrete input: a second sale
of the kept (`sold`) vehicle succeeds and appends a second `Sale` row. -/
theorem c10_amended_witness :
    ∃ s2, recordSale (runOps c10KeepOps) "V1" 20000 (some 1) "" "direct" ""
        true 1 "sale-2" "sev-2" = .ok s2 ∧
      s2.sales.length = (runOps c10KeepOps).sales.length + 1 ∧
      s2.sales.map (fun x => (x.id, x.vehicleId)) =
        (runOps c10KeepOps).sales.map (fun x => (x.id, x.vehicleId)) ++
          [("sale-2", "V1")] := by
  have h := c10_record_sale_amended (runOps (c10KeepOps.take 1)) "V1" 24500 20000
    0 1 "" "" "direct" "" "direct" "" true 0 1 "sale-1" "sev-1" "sale-2" "sev-2"
    (runOps c10KeepOps) (by decide) (by decide)
  obtain ⟨-, s2, hs2, hlen, -, hmap⟩ := h
  exact ⟨s2, hs2, hlen, hmap⟩

-- ── Claim C7 ────────────────────────────────────────────────────────

theorem recordSaleBody_profiles (s : StoreState) (vid : String) (p : ℚ)
    (t : Time) (l src sp : String) (keep : Bool) (now : Time) (fs fe : String)
    (vehicle : VehicleRow) :
    (recordSaleBody s vid p t l src sp keep now fs fe vehicle).profiles =
      (if strTrim l ≠ "" then
        s.profiles.map (fun q =>
          if q.id == strTrim l then
            { q with status := "won", lastActivityAt := now, lastVehicleId := vid }
          else q)
      else s.profiles) := rfl

theorem recordSaleBody_vehicles_nokeep (s : StoreState) (vid : String) (p : ℚ)
    (t : Time) (l src sp : String) (now : Time) (fs fe : String)
    (vehicle : VehicleRow) :
    (recordSaleBody s vid p t l src sp false now fs fe vehicle).vehicles =
      (s.vehicles.map fun r =>
        if r.id == vid then { r with availabilityStatus := soldStatus } else r).map
        (fun r =>
          if r.id == vid then
            { r with availabilityStatus := archivedSoldStatus, expiresAt := none }
          else r) := rfl

/-- C7: a successful `record_sale` with `keep_vehicle_record=False` and a
`lead_id` naming an existing profile leaves the vehicle `archived_sold` —
`get` returns `None` — and flips that profile's status to `won`. -/
theorem c7_record_sale_archives_and_wins (s : StoreState) (vid leadId : String)
    (soldPrice : ℚ) (soldAt : Time) (src sp : String) (now : Time)
    (fs fe : String) (s' : StoreState)
    (h : recordSale s vid soldPrice (some soldAt) leadId src sp false now fs fe =
      .ok s')
    (hP : (findProfile s.profiles (strTrim leadId)).isSome)
    (hlead : strTrim leadId ≠ "") :
    getVehicle s'.vehicles vid = none ∧
      (findProfile s'.profiles (strTrim leadId)).map (·.status) = some "won" := by
  obtain ⟨t, vehicle, ht, hveh, hp, hbody⟩ := recordSale_ok_elim h
  subst hbody
  constructor
  · rw [recordSaleBody_vehicles_nokeep]
    unfold getVehicle
    rw [List.find?_eq_none]
    intro x hx
    rcases List.mem_map.mp hx with ⟨y, hy, hxy⟩
    rcases List.mem_map.mp hy with ⟨r, _, hyr⟩
    subst hxy
    subst hyr
    by_cases hid : (r.id == vid) = true
    · rw [if_pos hid, if_pos (by simpa using hid)]
      simp [archivedStatuses, archivedSoldStatus]
    · rw [if_neg hid, if_neg hid]
      simp only [Bool.and_eq_true]
      rintro ⟨hc, -⟩
      exact hid hc
  · rw [recordSaleBody_profiles, if_pos hlead,
      findProfile_map_update s.profiles (strTrim leadId)
        (fun q =>
          { q with status := "won", lastActivityAt := now, lastVehicleId := vid })
        (fun q => rfl)]
    obtain ⟨P, hPs⟩ := Option.isSome_iff_exists.mp hP
    rw [hPs]
    rfl

/-- Scenario for the C7 witness: an active vehicle, one lead event creating
profile `lp-7`, then the sale that archives the vehicle. -/
def c7Ops : List StoreOp :=
  [ .upsert { id := "V1", vin := "C7VIN000000000001", price := 30000 } 0,
    .recordLead { vehicleId := "V1", action := "viewed", customerId := "c7" } 0
      ⟨"lp-7", "ev-7", "es-7"⟩,
    .recordSale "V1" 24500 (some 0) "lp-7" "direct" "" false 1 "sale-7" "sev-7" ]

/-- C7, witness at the concrete scenario. -/
theorem c7_witness :
    getVehicle (runOps c7Ops).vehicles "V1" = none ∧
      (findProfile (runOps c7Ops).profiles "lp-7").map (·.status) = some "won" := by
  have h := c7_record_sale_archives_and_wins (runOps (c7Ops.take 2)) "V1" "lp-7"
    24500 0 "direct" "" 1 "sale-7" "sev-7" (runOps c7Ops)
    (by decide) (by decide) (by decide)
  rwa [show strTrim "lp-7" = "lp-7" by decide] at h

-- ── Claim C1 ────────────────────────────────────────────────────────

/-- The profile status just before a `record_lead` call resolved to `rid`
("new" when the call creates the profile). -/
def oldStatusOf (s : StoreState) (rid : String) : String :=
  ((findProfile s.profiles rid).map (·.status)).getD "new"

theorem recordLeadBody_snd (s : StoreState) (req : LeadRequest) (now : Time)
    (fresh : FreshIds) (en : Bool) (vrow : VehicleRow) :
    (recordLeadBody s req now fresh en vrow).2 =
      (resolveForRequest s.profiles req now fresh.profileId).2 := rfl

theorem recordLeadBody_leads (s : StoreState) (req : LeadRequest) (now : Time)
    (fresh : FreshIds) (en : Bool) (vrow : VehicleRow) :
    (recordLeadBody s req now fresh en vrow).1.leads =
      s.leads ++ [leadEventOf req now fresh.eventId vrow
        (resolveForRequest s.profiles req now fresh.profileId).2] := rfl

theorem recordLeadBody_profiles (s : StoreState) (req : LeadRequest) (now : Time)
    (fresh : FreshIds) (en : Bool) (vrow : VehicleRow) :
    (recordLeadBody s req now fresh en vrow).1.profiles =
      applyProfileUpdate (resolveForRequest s.profiles req now fresh.profileId).1
        (resolveForRequest s.profiles req now fresh.profileId).2
        (computeLeadScore
          (s.leads ++ [leadEventOf req now fresh.eventId vrow
            (resolveForRequest s.profiles req now fresh.profileId).2])
          (resolveForRequest s.profiles req now fresh.profileId).2 now)
        (nextStatusOf
          (statusOfProfile (resolveForRequest s.profiles req now fresh.profileId).1
            (resolveForRequest s.profiles req now fresh.profileId).2)
          (computeLeadScore
            (s.leads ++ [leadEventOf req now fresh.eventId vrow
              (resolveForRequest s.profiles req now fresh.profileId).2])
            (resolveForRequest s.profiles req now fresh.profileId).2 now))
        now req.vehicleId := rfl

theorem findProfile_applyProfileUpdate (profiles : List LeadProfile)
    (rid : String) (score : ℚ) (status : String) (now : Time) (vehicleId : String) :
    findProfile (applyProfileUpdate profiles rid score status now vehicleId) rid =
      (findProfile profiles rid).map (fun p =>
        { p with score := score, status := status,
                 lastActivityAt := now, lastVehicleId := vehicleId }) :=
  findProfile_map_update profiles rid
    (fun p => { p with score := score, status := status,
                       lastActivityAt := now, lastVehicleId := vehicleId })
    (fun _ => rfl)

theorem findProfile_map_ite_of_found (l : List LeadProfile) (pid : String)
    (c q : LeadProfile) (hq : findProfile l pid = some q) (hc : c.id = pid) :
    findProfile (l.map fun p => if p.id == pid then c else p) pid = some c := by
  rw [findProfile_map_const l pid c hc, hq]
  rfl

theorem resolveForRequest_found (profiles : List LeadProfile) (req : LeadRequest)
    (now : Time) (freshId : String) (hfresh : freshId ∉ profiles.map (·.id)) :
    ∃ q, findProfile (resolveForRequest profiles req now freshId).1
        (resolveForRequest profiles req now freshId).2 = some q ∧
      q.status =
        ((findProfile profiles
          (resolveForRequest profiles req now freshId).2).map (·.status)).getD "new" := by
  unfold resolveForRequest resolveOrCreateLeadProfile
  dsimp only
  cases hlook : lookupLeadProfileId profiles req.leadId (strTrim req.customerId)
      (strLower (strTrim req.customerContact)) (strTrim req.sessionId) with
  | none =>
      dsimp only
      have hnone : findProfile profiles freshId = none :=
        findProfile_eq_none_of_not_mem hfresh
      rw [findProfile_append_of_none hnone, hnone, findProfile_cons]
      exact ⟨_, by rw [if_pos (beq_iff_eq.mpr rfl)], rfl⟩
  | some rid =>
      dsimp only
      cases hex : findProfile profiles rid with
      | none =>
          obtain ⟨q, hq, hqid⟩ := lookupLeadProfileId_mem hlook
          have hsome : (findProfile profiles rid).isSome :=
            hqid ▸ findProfile_isSome_of_mem hq
          rw [hex] at hsome
          simp at hsome
      | some existing =>
          dsimp only
          rw [hex]
          have hid := findProfile_id hex
          refine ⟨_, findProfile_map_ite_of_found profiles rid _ existing hex ?_, rfl⟩
          exact hid

/-- C1, amended: `record_lead` freezes terminal statuses (`won` / `lost`),
but otherwise recomputes the status purely from the freshly recomputed
decayed score via the thresholds (`≥22 → qualified`, `≥10 → engaged`, else
`new`), with no forward-only guard — so a non-terminal status *can* move
backwards (e.g. `qualified → engaged`) once older events decay; see the
counterexample. -/
theorem c1_status_recompute_amended (s : StoreState) (req : LeadRequest)
    (now : Time) (fresh : FreshIds) (en : Bool) (s' : StoreState) (rid : String)
    (h : recordLead s req now fresh en = .ok (s', rid))
    (hfresh : fresh.profileId ∉ s.profiles.map (·.id)) :
    ∃ p', findProfile s'.profiles rid = some p' ∧
      p'.score = computeLeadScore s'.leads rid now ∧
      p'.status = nextStatusOf (oldStatusOf s rid) p'.score := by
  obtain ⟨vrow, hfind, hout⟩ := recordLead_ok_elim h
  have hs' : s' = (recordLeadBody s req now fresh en vrow).1 := congrArg Prod.fst hout
  have hrid : rid = (recordLeadBody s req now fresh en vrow).2 := congrArg Prod.snd hout
  subst hs'
  subst hrid
  rw [recordLeadBody_snd, recordLeadBody_profiles, recordLeadBody_leads,
    findProfile_applyProfileUpdate]
  obtain ⟨q, hq, hqstat⟩ := resolveForRequest_found s.profiles req now
    fresh.profileId hfresh
  have hstat : statusOfProfile (resolveForRequest s.profiles req now fresh.profileId).1
      (resolveForRequest s.profiles req now fresh.profileId).2 = q.status := by
    unfold statusOfProfile
    rw [hq]
  rw [hq]
  refine ⟨_, rfl, rfl, ?_⟩
  dsimp only
  rw [hstat, hqstat]
  rfl

/-- The C1 counterexample run: three weight-bearing events at time 0 push the
profile to exactly score 22 (`qualified`); a `viewed` event two days later
recomputes the decayed score to `22·0.85 + 1 = 19.7`, and the status drops
back to `engaged`. -/
def c1Ops : List StoreOp :=
  [ .upsert exampleVehicle 0,
    .recordLead { vehicleId := "V1", action := "test_drive", customerId := "c1" } 0
      ⟨"lp-1", "ev-1", "es-1"⟩,
    .recordLead { vehicleId := "V1", action := "reserve_vehicle",
                  leadId := "lp-1", customerId := "c1" } 0 ⟨"lp-2", "ev-2", "es-2"⟩,
    .recordLead { vehicleId := "V1", action := "availability_check",
                  leadId := "lp-1", customerId := "c1" } 0 ⟨"lp-3", "ev-3", "es-3"⟩,
    .recordLead { vehicleId := "V1", action := "viewed",
                  leadId := "lp-1", customerId := "c1" } 2 ⟨"lp-4", "ev-4", "es-4"⟩ ]

/-- C1, counterexample: a non-terminal profile's status moves backwards — the
call at time 2 is on a profile whose status is `qualified`, and afterwards
the status is `engaged`, earlier in the order `new < engaged < qualified`. -/
theorem c1_counterexample :
    (findProfile (runOps (c1Ops.take 4)).profiles "lp-1").map
        (fun p => (p.score, p.status)) = some (22, "qualified") ∧
      (findProfile (runOps c1Ops).profiles "lp-1").map
        (fun p => (p.score, p.status)) = some (197/10, "engaged") := by decide

/-- C1, witness for the amended theorem: the terminal-freeze side at a
concrete input — a `won` profile stays `won` through `record_lead`. -/
def c1WonState : StoreState :=
  { vehicles := [vehicleToRow exampleVehicle 0],
    leads := [],
    profiles := [{ id := "lp-w", customerId := "cw", sessionId := "",
                   customerName := "", customerContact := "", status := "won",
                   score := 0, firstSeenAt := 0, lastActivityAt := 0,
                   lastVehicleId := "V1", notes := "", sourceChannel := "direct" }],
    sales := [], escalations := [] }

def c1WonReq : LeadRequest :=
  { vehicleId := "V1", action := "viewed", customerId := "cw" }

theorem c1_amended_witness :
    (findProfile (applyOp c1WonState
        (.recordLead c1WonReq 0 ⟨"lp-f", "ev-f", "es-f"⟩)).profiles "lp-w").map
      (·.status) = some "won" := by
  have h := c1_status_recompute_amended c1WonState c1WonReq 0
    ⟨"lp-f", "ev-f", "es-f"⟩ true
    (applyOp c1WonState (.recordLead c1WonReq 0 ⟨"lp-f", "ev-f", "es-f"⟩)) "lp-w"
    (by decide) (by decide)
  obtain ⟨p', hp', -, hstat⟩ := h
  rw [hp']
  show some p'.status = some "won"
  rw [hstat, show oldStatusOf c1WonState "lp-w" = "won" from by decide]
  unfold nextStatusOf
  rw [if_pos (Or.inl rfl)]

-- ── Claim C2 ────────────────────────────────────────────────────────
-- Normalisation facts: `strip` and ASCII `lower` are idempotent and commute,
-- so re-normalising the already-normalised fields that `record_lead` hands to
-- `_resolve_or_create_lead_profile` (which re-strips inside
-- `_lookup_lead_profile_id`) is a no-op.

theorem toNat_charOfNat {n : ℕ} (h : n < 55296) : (Char.ofNat n).toNat = n := by
  unfold Char.ofNat
  rw [dif_pos (Or.inl h)]
  rfl

theorem charEq_of_toNat_eq {a b : Char} (h : a.toNat = b.toNat) : a = b :=
  Char.eq_of_val_eq (UInt32.toNat.inj h)

theorem char_beq_iff_toNat (a b : Char) : (a == b) = decide (a.toNat = b.toNat) := by
  cases hab : (a == b) with
  | false =>
      rw [beq_eq_false_iff_ne] at hab
      have hne : ¬ a.toNat = b.toNat := fun hc => hab (charEq_of_toNat_eq hc)
      simp [hne]
  | true =>
      rw [beq_iff_eq] at hab
      subst hab
      simp

theorem upperChar_range {c : Char} (h : ('A' ≤ c && c ≤ 'Z') = true) :
    65 ≤ c.toNat ∧ c.toNat ≤ 90 := by
  rw [Bool.and_eq_true, decide_eq_true_eq, decide_eq_true_eq] at h
  obtain ⟨h1, h2⟩ := h
  rw [Char.le_def] at h1 h2
  exact ⟨h1, h2⟩

theorem charLower_toNat_of_upper {c : Char} (h : ('A' ≤ c && c ≤ 'Z') = true) :
    (charLower c).toNat = c.toNat + 32 := by
  obtain ⟨h1, h2⟩ := upperChar_range h
  unfold charLower
  rw [if_pos h]
  exact toNat_charOfNat (by omega)

theorem not_upperChar_of_toNat {c : Char} (h : 90 < c.toNat) :
    ('A' ≤ c && c ≤ 'Z') = false := by
  rw [Bool.and_eq_false_iff]
  right
  rw [decide_eq_false_iff_not]
  intro hle
  rw [Char.le_def] at hle
  have hle' : c.toNat ≤ 90 := hle
  omega

theorem charLower_charLower (c : Char) : charLower (charLower c) = charLower c := by
  by_cases h : ('A' ≤ c && c ≤ 'Z') = true
  · obtain ⟨h1, h2⟩ := upperChar_range h
    have ht := charLower_toNat_of_upper h
    show (if ('A' ≤ charLower c && charLower c ≤ 'Z') = true then _ else _) = _
    rw [not_upperChar_of_toNat (by omega)]
    simp
  · show charLower (if ('A' ≤ c && c ≤ 'Z') = true then _ else _) = _
    rw [Bool.not_eq_true] at h
    rw [h]
    simp only [Bool.false_eq_true, if_false]

theorem isSpaceChar_toNat (c : Char) :
    isSpaceChar c =
      decide (c.toNat = 32 ∨ c.toNat = 9 ∨ c.toNat = 10 ∨ c.toNat = 13) := by
  unfold isSpaceChar
  rw [char_beq_iff_toNat, char_beq_iff_toNat, char_beq_iff_toNat, char_beq_iff_toNat]
  rcases Decidable.em (c.toNat = 32 ∨ c.toNat = 9 ∨ c.toNat = 10 ∨ c.toNat = 13)
    with h | h
  · rw [decide_eq_true h]
    rcases h with h | h | h | h <;> simp [h]
  · rw [decide_eq_false h]
    push_neg at h
    obtain ⟨a, b, d, e⟩ := h
    simp [a, b, d, e]

theorem isSpaceChar_charLower (c : Char) :
    isSpaceChar (charLower c) = isSpaceChar c := by
  by_cases h : ('A' ≤ c && c ≤ 'Z') = true
  · obtain ⟨h1, h2⟩ := upperChar_range h
    have ht := charLower_toNat_of_upper h
    rw [isSpaceChar_toNat, isSpaceChar_toNat, ht]
    have hl : ¬ (c.toNat + 32 = 32 ∨ c.toNat + 32 = 9 ∨ c.toNat + 32 = 10 ∨
        c.toNat + 32 = 13) := by omega
    have hr : ¬ (c.toNat = 32 ∨ c.toNat = 9 ∨ c.toNat = 10 ∨ c.toNat = 13) := by
      omega
    rw [decide_eq_false hl, decide_eq_false hr]
  · unfold charLower
    rw [Bool.not_eq_true] at h
    rw [h]
    simp only [Bool.false_eq_true, if_false]

theorem head_dropWhile_false {α} (p : α → Bool) (l : List α) :
    ∀ a, (l.dropWhile p).head? = some a → p a = false := by
  induction l with
  | nil => intro a ha; cases ha
  | cons b t ih =>
      intro a ha
      rw [List.dropWhile_cons] at ha
      by_cases hb : p b = true
      · rw [if_pos hb] at ha
        exact ih a ha
      · rw [if_neg hb] at ha
        cases ha
        exact Bool.not_eq_true _ |>.mp hb

theorem dropWhile_eq_self_of {α} (p : α → Bool) (l : List α)
    (h : ∀ a, l.head? = some a → p a = false) : l.dropWhile p = l := by
  cases l with
  | nil => rfl
  | cons b t =>
      rw [List.dropWhile_cons, if_neg]
      rw [h b rfl]
      simp

theorem dropWhile_dropWhile {α} (p : α → Bool) (l : List α) :
    (l.dropWhile p).dropWhile p = l.dropWhile p :=
  dropWhile_eq_self_of p _ (head_dropWhile_false p l)

/-- The char-list trim underlying `strTrim`. -/
def trimP {α} (p : α → Bool) (l : List α) : List α :=
  ((l.dropWhile p).reverse.dropWhile p).reverse

theorem trimP_trimP {α} (p : α → Bool) (l : List α) :
    trimP p (trimP p l) = trimP p l := by
  obtain ⟨t, htt⟩ := List.dropWhile_suffix (l := (l.dropWhile p).reverse) p
  have hu : l.dropWhile p =
      ((l.dropWhile p).reverse.dropWhile p).reverse ++ t.reverse := by
    have hrev := congrArg List.reverse htt
    rw [List.reverse_append, List.reverse_reverse] at hrev
    exact hrev.symm
  have hA : ∀ a, (((l.dropWhile p).reverse.dropWhile p).reverse).head? = some a →
      p a = false := by
    intro a ha
    apply head_dropWhile_false p l a
    rw [hu]
    cases hv : ((l.dropWhile p).reverse.dropWhile p).reverse with
    | nil => rw [hv] at ha; cases ha
    | cons x xs =>
        rw [hv] at ha
        rw [List.cons_append, List.head?_cons]
        rw [List.head?_cons] at ha
        exact ha
  show ((((((l.dropWhile p).reverse.dropWhile p).reverse).dropWhile
    p).reverse).dropWhile p).reverse = _
  rw [dropWhile_eq_self_of p _ hA, List.reverse_reverse, dropWhile_dropWhile]
  rfl

theorem dropWhile_map_comm {α} (f : α → α) (p : α → Bool)
    (hf : ∀ a, p (f a) = p a) (l : List α) :
    (l.map f).dropWhile p = (l.dropWhile p).map f := by
  induction l with
  | nil => rfl
  | cons b t ih =>
      rw [List.map_cons, List.dropWhile_cons, List.dropWhile_cons, hf]
      by_cases hb : p b = true
      · rw [if_pos hb, if_pos hb, ih]
      · rw [if_neg hb, if_neg hb, List.map_cons]

theorem trimP_map_comm {α} (f : α → α) (p : α → Bool)
    (hf : ∀ a, p (f a) = p a) (l : List α) :
    trimP p (l.map f) = (trimP p l).map f := by
  unfold trimP
  rw [dropWhile_map_comm f p hf, ← List.map_reverse, dropWhile_map_comm f p hf,
    ← List.map_reverse]

theorem strTrim_strTrim (s : String) : strTrim (strTrim s) = strTrim s :=
  congrArg String.mk (trimP_trimP isSpaceChar s.data)

theorem strLower_strLower (s : String) : strLower (strLower s) = strLower s := by
  apply congrArg String.mk
  show (s.data.map charLower).map charLower = _
  rw [List.map_map]
  exact List.map_congr_left fun a _ => charLower_charLower a

theorem strTrim_strLower (s : String) :
    strTrim (strLower s) = strLower (strTrim s) :=
  congrArg String.mk (trimP_map_comm charLower isSpaceChar isSpaceChar_charLower s.data)

/-- `.strip().lower()` is idempotent: normalising an already-normalised
contact changes nothing. -/
theorem normContact_idem (s : String) :
    strLower (strTrim (strLower (strTrim s))) = strLower (strTrim s) := by
  rw [strTrim_strLower, strTrim_strTrim, strLower_strLower]

-- The lookup-level facts behind C2.

theorem profile_eq_of_id_eq {l : List LeadProfile}
    (hnodup : (l.map (·.id)).Nodup) {p q : LeadProfile}
    (hp : p ∈ l) (hq : q ∈ l) (h : p.id = q.id) : p = q :=
  List.inj_on_of_nodup_map hnodup hp hq h

theorem trustedLookup_none_of_no_match (profiles : List LeadProfile)
    (nLead nCust nContact nSess : String) (P : LeadProfile)
    (hP : P ∈ profiles) (hPid : nLead = P.id)
    (hnodup : (profiles.map (·.id)).Nodup)
    (hcust : ¬ (nCust ≠ "" ∧ nCust = P.customerId))
    (hcontact : ¬ (nContact ≠ "" ∧ nContact = P.customerContact))
    (hsess : ¬ (nSess ≠ "" ∧ nSess = P.sessionId)) :
    trustedLookup profiles nLead nCust nContact nSess = none := by
  unfold trustedLookup
  by_cases hne : nLead ≠ ""
  · rw [if_pos hne]
    cases hrow : findProfile profiles nLead with
    | none => rfl
    | some row =>
        have hrP : row = P :=
          profile_eq_of_id_eq hnodup (findProfile_mem hrow) hP
            (by rw [findProfile_id hrow, hPid])
        subst hrP
        dsimp only
        rw [if_neg]
        rintro (hc | hc | hc)
        · exact hcust hc
        · exact hcontact hc
        · exact hsess hc
  · rw [if_neg hne]

theorem fallbackLookup_ne_of_no_match (profiles : List LeadProfile)
    (nCust nContact nSess : String) (P : LeadProfile) (rid : String)
    (hP : P ∈ profiles) (hnodup : (profiles.map (·.id)).Nodup)
    (hcust : ¬ (nCust ≠ "" ∧ nCust = P.customerId))
    (hcontact : ¬ (nContact ≠ "" ∧ nContact = P.customerContact))
    (hsess : ¬ (nSess ≠ "" ∧ nSess = P.sessionId))
    (h : fallbackLookup profiles nCust nContact nSess = some rid) :
    rid ≠ P.id := by
  unfold fallbackLookup at h
  split at h
  next i hby =>
    split at hby
    next hc =>
      cases h
      rcases Option.map_eq_some'.mp hby with ⟨q, hq, hqid⟩
      have hqf := List.mem_filter.mp (mostRecentProfile_mem hq)
      intro hiP
      refine hcust ⟨hc, ?_⟩
      have hqP : q = P :=
        profile_eq_of_id_eq hnodup hqf.1 hP (by rw [hqid, hiP])
      rw [← hqP, eq_comm, ← beq_iff_eq]
      exact hqf.2
    next hc => cases hby
  next hby =>
    split at h
    next i hby2 =>
      split at hby2
      next hc =>
        cases h
        rcases Option.map_eq_some'.mp hby2 with ⟨q, hq, hqid⟩
        have hqf := List.mem_filter.mp (mostRecentProfile_mem hq)
        intro hiP
        refine hcontact ⟨hc, ?_⟩
        have hqP : q = P :=
          profile_eq_of_id_eq hnodup hqf.1 hP (by rw [hqid, hiP])
        rw [← hqP, eq_comm, ← beq_iff_eq]
        exact hqf.2
      next hc => cases hby2
    next hby2 =>
      split at h
      next hc =>
        rcases Option.map_eq_some'.mp h with ⟨q, hq, hqid⟩
        have hqf := List.mem_filter.mp (mostRecentProfile_mem hq)
        intro hiP
        refine hsess ⟨hc, ?_⟩
        have hqP : q = P :=
          profile_eq_of_id_eq hnodup hqf.1 hP (by rw [hqid, hiP])
        rw [← hqP, eq_comm, ← beq_iff_eq]
        exact hqf.2
      next hc => cases h

theorem lookupLeadProfileId_eq_fallback (profiles : List LeadProfile)
    (leadId cust contact sess : String)
    (htr : trustedLookup profiles (strTrim leadId) (strTrim cust)
      (strLower (strTrim contact)) (strTrim sess) = none) :
    lookupLeadProfileId profiles leadId cust contact sess =
      fallbackLookup profiles (strTrim cust) (strLower (strTrim contact))
        (strTrim sess) := by
  unfold lookupLeadProfileId
  dsimp only
  rw [htr]

theorem resolveOrCreateLeadProfile_snd (profiles : List LeadProfile)
    (vehicleId : String) (now : Time) (freshId : String)
    (leadId customerId sessionId customerName customerContact sourceChannel :
      String) :
    (resolveOrCreateLeadProfile profiles vehicleId now freshId leadId customerId
        sessionId customerName customerContact sourceChannel).2 =
      (lookupLeadProfileId profiles leadId customerId customerContact
        sessionId).getD freshId := by
  unfold resolveOrCreateLeadProfile
  dsimp only
  cases lookupLeadProfileId profiles leadId customerId customerContact sessionId with
  | none => rfl
  | some rid =>
      dsimp only
      cases findProfile profiles rid with
      | none => rfl
      | some existing => rfl

theorem resolveForRequest_snd (profiles : List LeadProfile) (req : LeadRequest)
    (now : Time) (freshId : String) :
    (resolveForRequest profiles req now freshId).2 =
      (lookupLeadProfileId profiles req.leadId (strTrim req.customerId)
        (strLower (strTrim req.customerContact)) (strTrim req.sessionId)).getD
        freshId := by
  unfold resolveForRequest
  exact resolveOrCreateLeadProfile_snd profiles req.vehicleId now freshId
    req.leadId (strTrim req.customerId) (strTrim req.sessionId)
    (strTrim req.customerName) (strLower (strTrim req.customerContact))
    (normSource req.sourceChannel)

/-- C2: a `lead_id` naming an existing profile is never trusted when none of
the supplied `customer_id`, normalised `customer_contact`, `session_id`
matches that profile: `record_lead` still succeeds, the resolved lead id is
not the named profile's, resolution collapses to the pure fallback chain
(`customer_id`, then contact, then `session_id`, most recent
`last_activity_at` winning), and when the fallback finds nothing the event
lands on a freshly created profile. -/
theorem c2_untrusted_lead_id (s : StoreState) (req : LeadRequest) (now : Time)
    (fresh : FreshIds) (en : Bool) (P : LeadProfile)
    (hP : P ∈ s.profiles)
    (hPid : strTrim req.leadId = P.id)
    (hnodup : (s.profiles.map (·.id)).Nodup)
    (hfresh : fresh.profileId ∉ s.profiles.map (·.id))
    (hveh : (s.vehicles.find? (fun r =>
      r.id == req.vehicleId &&
        !(hiddenStatuses.contains r.availabilityStatus))).isSome)
    (hcust : ¬ (strTrim req.customerId ≠ "" ∧
      strTrim req.customerId = P.customerId))
    (hcontact : ¬ (strLower (strTrim req.customerContact) ≠ "" ∧
      strLower (strTrim req.customerContact) = P.customerContact))
    (hsess : ¬ (strTrim req.sessionId ≠ "" ∧
      strTrim req.sessionId = P.sessionId)) :
    ∃ s' rid,
      recordLead s req now fresh en = .ok (s', rid) ∧
      rid ≠ P.id ∧
      lookupLeadProfileId s.profiles req.leadId (strTrim req.customerId)
          (strLower (strTrim req.customerContact)) (strTrim req.sessionId) =
        fallbackLookup s.profiles (strTrim req.customerId)
          (strLower (strTrim req.customerContact)) (strTrim req.sessionId) ∧
      (lookupLeadProfileId s.profiles req.leadId (strTrim req.customerId)
          (strLower (strTrim req.customerContact)) (strTrim req.sessionId) =
          none →
        rid = fresh.profileId ∧ (findProfile s'.profiles rid).isSome) := by
  obtain ⟨vrow, hv⟩ := Option.isSome_iff_exists.mp hveh
  have hid1 : strTrim (strTrim req.customerId) = strTrim req.customerId :=
    strTrim_strTrim _
  have hid2 : strLower (strTrim (strLower (strTrim req.customerContact))) =
      strLower (strTrim req.customerContact) := normContact_idem _
  have hid3 : strTrim (strTrim req.sessionId) = strTrim req.sessionId :=
    strTrim_strTrim _
  have htr : trustedLookup s.profiles (strTrim req.leadId)
      (strTrim (strTrim req.customerId))
      (strLower (strTrim (strLower (strTrim req.customerContact))))
      (strTrim (strTrim req.sessionId)) = none := by
    rw [hid1, hid2, hid3]
    exact trustedLookup_none_of_no_match s.profiles _ _ _ _ P hP hPid
      hnodup hcust hcontact hsess
  have hcollapse := lookupLeadProfileId_eq_fallback s.profiles req.leadId
    (strTrim req.customerId) (strLower (strTrim req.customerContact))
    (strTrim req.sessionId) htr
  rw [hid1, hid2, hid3] at hcollapse
  refine ⟨(recordLeadBody s req now fresh en vrow).1,
    (recordLeadBody s req now fresh en vrow).2, ?_, ?_, hcollapse, ?_⟩
  · unfold recordLead
    rw [hv]
  · rw [recordLeadBody_snd, resolveForRequest_snd, hcollapse]
    cases hfb : fallbackLookup s.profiles (strTrim req.customerId)
        (strLower (strTrim req.customerContact)) (strTrim req.sessionId) with
    | none =>
        intro hEq
        have hEq' : fresh.profileId = P.id := hEq
        exact hfresh (by rw [hEq']; exact List.mem_map_of_mem _ hP)
    | some rid' =>
        exact fallbackLookup_ne_of_no_match s.profiles _ _ _ P rid' hP hnodup
          hcust hcontact hsess hfb
  · intro hlk
    constructor
    · rw [recordLeadBody_snd, resolveForRequest_snd, hlk]
      rfl
    · obtain ⟨q, hq, -⟩ := resolveForRequest_found s.profiles req now
        fresh.profileId hfresh
      rw [recordLeadBody_snd, recordLeadBody_profiles,
        findProfile_applyProfileUpdate, hq]
      rfl

/-- The C2 witness scenario: profile `lp-A` belongs to customer `alice`; a
request arrives carrying `leadId = "lp-A"` but `customerId = "bob"`. -/
def c2P : LeadProfile :=
  { id := "lp-A", customerId := "alice", sessionId := "", customerName := "",
    customerContact := "", status := "new", score := 0, firstSeenAt := 0,
    lastActivityAt := 0, lastVehicleId := "V1", notes := "",
    sourceChannel := "direct" }

def c2State : StoreState :=
  { vehicles := [vehicleToRow exampleVehicle 0], leads := [], profiles := [c2P],
    sales := [], escalations := [] }

def c2Req : LeadRequest :=
  { vehicleId := "V1", action := "viewed", leadId := "lp-A",
    customerId := "bob" }

theorem c2_witness :
    ∃ s' rid,
      recordLead c2State c2Req 0 ⟨"lp-f", "ev-f", "es-f"⟩ true = .ok (s', rid) ∧
      rid ≠ c2P.id ∧
      lookupLeadProfileId c2State.profiles c2Req.leadId
          (strTrim c2Req.customerId) (strLower (strTrim c2Req.customerContact))
          (strTrim c2Req.sessionId) =
        fallbackLookup c2State.profiles (strTrim c2Req.customerId)
          (strLower (strTrim c2Req.customerContact))
          (strTrim c2Req.sessionId) ∧
      (lookupLeadProfileId c2State.profiles c2Req.leadId
          (strTrim c2Req.customerId) (strLower (strTrim c2Req.customerContact))
          (strTrim c2Req.sessionId) = none →
        rid = "lp-f" ∧ (findProfile s'.profiles rid).isSome) :=
  c2_untrusted_lead_id c2State c2Req 0 ⟨"lp-f", "ev-f", "es-f"⟩ true c2P
    (by decide) (by decide) (by decide) (by decide) (by decide)
    (by decide) (by decide) (by decide)

-- ── Claim C8 ────────────────────────────────────────────────────────

def c8V1 : VehicleInput :=
  { id := "V1", make := "Toyota", model := "Camry", bodyType := "sedan",
    fuelType := "gas", price := 30000, vin := "C8VIN0000000001" }

def c8V2 : VehicleInput :=
  { id := "V2", make := "Toyota", model := "Camry", bodyType := "sedan",
    fuelType := "gas", price := 20000, vin := "C8VIN0000000002" }

def c8V3 : VehicleInput :=
  { id := "V3", make := "Toyota", model := "Camry", bodyType := "sedan",
    fuelType := "gas", price := 21000, vin := "C8VIN0000000003" }

/-- The C8 scenario: `V1` at $30,000 with exactly two same-make/model peers at
$20,000 and $21,000. -/
def c8Ops : List StoreOp :=
  [ .upsert c8V1 0, .upsert c8V2 0, .upsert c8V3 0 ]

/-- The pricing row `get_pricing_opportunities` produces for `V1` in the C8
scenario. -/
def c8Row : PricingRow :=
  { vehicleId := "V1", price := 30000, marketMedianPrice := 20500,
    priceDeltaPercent := 4634/100, peerBasis := "make_model", peerCount := 2,
    daysOnLot := 0, leads7d := 0, leads30d := 0, velocityBucket := "low",
    flags := ["overpriced"], recommendation := "reprice_down" }

set_option synthInstance.maxSize 512 in
/-- C8: in the scenario `V1 = $30,000` with two same-make/model peers at
`$20,000`/`$21,000`, the report (default thresholds) leads with `V1` flagged
`overpriced`, `market_median_price = 20500`,
`price_delta_percent = 46.34 ≈ 46.3` and recommendation `reprice_down`; and
in general every emitted row's peer set is the same-`(make, model)` group
when at least one such peer exists, else the same-`(body_type, fuel_type)`
group, with `delta = (price − median)/median × 100` (rounded to 2 decimals)
whenever the peer median is positive. -/
theorem c8_pricing (actives : List VehicleRow) (leads : List LeadEvent)
    (now : Time) (sd : Int) (op up : ℚ) (v : VehicleRow) (r : PricingRow)
    (h : pricingOpportunity actives leads now sd op up v = some r) :
    ((getPricingOpportunities (runOps c8Ops) 0).map
        (fun x => (x.vehicleId, x.marketMedianPrice, x.priceDeltaPercent,
          x.peerBasis, x.recommendation, x.flags))).head? =
      some ("V1", 20500, 4634/100, "make_model", "reprice_down",
        ["overpriced"]) ∧
    absQ (4634/100 - 463/10) < 1/10 ∧
    (mmPeerPrices actives v ≠ [] →
      r.peerBasis = "make_model" ∧
      r.peerCount = (mmPeerPrices actives v).length ∧
      r.marketMedianPrice = round2 (medianQ (mmPeerPrices actives v)) ∧
      (0 < medianQ (mmPeerPrices actives v) →
        r.priceDeltaPercent =
          round2 ((v.price - medianQ (mmPeerPrices actives v)) /
            medianQ (mmPeerPrices actives v) * 100))) ∧
    (mmPeerPrices actives v = [] →
      r.peerBasis = "body_fuel" ∧
      r.peerCount = (bfPeerPrices actives v).length ∧
      (0 < medianQ (bfPeerPrices actives v) →
        r.priceDeltaPercent =
          round2 ((v.price - medianQ (bfPeerPrices actives v)) /
            medianQ (bfPeerPrices actives v) * 100))) := by
  unfold pricingOpportunity at h
  dsimp only at h
  split at h
  · cases h
  · injection h with h2
    subst h2
    refine ⟨by decide, by decide, ?_, ?_⟩
    · intro hmm
      refine ⟨by simp [pricingRowOf, peerBasisOf, hmm],
        by simp [pricingRowOf, peersOf, hmm],
        by simp [pricingRowOf, peersOf, peerMedian, hmm], ?_⟩
      intro hpos
      simp [pricingRowOf, peersOf, peerMedian, peerDelta, hmm, hpos]
    · intro hmm
      refine ⟨by simp [pricingRowOf, peerBasisOf, hmm],
        by simp [pricingRowOf, peersOf, hmm], ?_⟩
      intro hpos
      have hbf : bfPeerPrices actives v ≠ [] := by
        intro hbf0
        rw [hbf0] at hpos
        exact absurd hpos (by decide)
      simp [pricingRowOf, peersOf, peerMedian, peerDelta, hmm, hbf, hpos]

set_option synthInstance.maxSize 512 in
/-- C8, witness: the concrete report head, obtained by applying the claim
theorem at `V1`'s own pricing row. -/
theorem c8_witness :
    ((getPricingOpportunities (runOps c8Ops) 0).map
        (fun x => (x.vehicleId, x.marketMedianPrice, x.priceDeltaPercent,
          x.peerBasis, x.recommendation, x.flags))).head? =
      some ("V1", 20500, 4634/100, "make_model", "reprice_down",
        ["overpriced"]) :=
  (c8_pricing (activeVehicles (runOps c8Ops).vehicles) (runOps c8Ops).leads 0
    45 5 (-5) (vehicleToRow c8V1 0) c8Row (by decide)).1

end AutoStore
